import Mathlib

/-!
# gotrace: the ptrace wait loop of `tracer/tracer.go` and the delay hook of `tampering`

A shallow embedding of `Tracer.waitForSyscall`, `Tracer.loop` and `Tracer.Start`, and of
`tampering.Parse` and `tampering.Delay`.

* The kernel is an oracle: every iteration of the loop consumes one `World`, the answers the
  kernel gives to the calls that iteration may make.
* Everything the tracer does to the outside (ptrace requests, waits, handler calls, sleeps) is
  recorded, in program order, in a list of `Effect`s.
* A handler slot is a `Bool` (registered or nil); calling a handler is an `Effect`.
* `parseSyscall`, `(*Syscall).populate` and `unix.SYS_READ` are not part of the sources at hand;
  they are the fields of the parameter `Decoder`.
* The package `filter` belongs to another module; what `tampering` calls of it is the parameter
  `FilterPackage`, and the package variable `tamper` is passed in and out explicitly.
-/

namespace Gotrace

/-! ## Signals and errnos (linux) -/

def SIGHUP : Int := 1
def SIGINT : Int := 2
def SIGQUIT : Int := 3
def SIGTRAP : Int := 5
def SIGPIPE : Int := 13
def SIGTERM : Int := 15
def SIGCONT : Int := 18
def SIGSTOP : Int := 19
def SIGTSTP : Int := 20
def SIGTTIN : Int := 21
def SIGTTOU : Int := 22

def EPERM : Int := 1
def ESRCH : Int := 3

/-- The stop signal of a syscall stop under PTRACE_O_TRACESYSGOOD: `syscall.SIGTRAP|0x80`. -/
def SIGTRAP_SYSGOOD : Int := ((5 ||| 0x80 : Nat) : Int)

/-! ## `syscall.WaitStatus` (a uint32) and its methods

`w&0x7F` is `w % 128`, `w&0xFF` is `w % 256`, `w>>8` is `w / 256`. -/

abbrev WaitStatus := Nat

/-- Go: `func (w WaitStatus) Exited() bool { return w&mask == exited }`. -/
def WaitStatus.Exited (w : WaitStatus) : Bool := w % 128 == 0

/-- Go: `func (w WaitStatus) Stopped() bool { return w&0xFF == stopped }`. -/
def WaitStatus.Stopped (w : WaitStatus) : Bool := w % 256 == 127

/-- Go: `func (w WaitStatus) Signaled() bool { return w&mask != stopped && w&mask != exited }`. -/
def WaitStatus.Signaled (w : WaitStatus) : Bool := w % 128 != 127 && w % 128 != 0

/-- Go: `ExitStatus`: `-1` unless exited, else `int(w>>shift) & 0xFF`. -/
def WaitStatus.ExitStatus (w : WaitStatus) : Int :=
  if !w.Exited then -1 else (((w / 256) % 256 : Nat) : Int)

/-- Go: `StopSignal`: `-1` unless stopped, else `Signal(w>>shift) & 0xFF`. -/
def WaitStatus.StopSignal (w : WaitStatus) : Int :=
  if !w.Stopped then -1 else (((w / 256) % 256 : Nat) : Int)

/-- Go: `TrapCause`: `-1` unless the stop signal is SIGTRAP, else `int(w>>shift) >> 8`. -/
def WaitStatus.TrapCause (w : WaitStatus) : Int :=
  if w.StopSignal != SIGTRAP then -1 else (((w / 256) / 256 : Nat) : Int)

/-! ## Data model -/

/-- Modelled from the spec: the declaration of `Syscall` is not in the sources at hand. The fields
are the four that `waitForSyscall` touches (`pid`, `number`, `args`, `paths`) and `rest`, which
stands for whatever else the decoder keeps in the event. -/
structure Syscall where
  pid : Int
  number : Int
  args : List Int
  paths : List String
  rest : List Int
  deriving DecidableEq, Repr

/-- Modelled from the spec: the declaration of `SigInfo` is not in the sources at hand; the spec
describes it as a process id and the delivered signal. -/
structure SigInfo where
  pid : Int
  signal : Int
  deriving DecidableEq, Repr

/-- The register snapshot `syscall.PtraceRegs`, as the list of its register values. -/
abbrev PtraceRegs := List Nat

/-- The six handler slots of `Tracer.handlers`: `true` when a handler is registered. -/
structure Handlers where
  syscallExit : Bool
  syscallEnter : Bool
  signal : Bool
  processExit : Bool
  attach : Bool
  detach : Bool
  deriving DecidableEq, Repr

/-- The session state, `type Tracer struct`. `cmd` is `true` when the tracer owns a child command
(`t.cmd != nil`). -/
structure Tracer where
  handlers : Handlers
  pid : Int
  cmd : Bool
  isExit : Bool
  lastCall : Option Syscall
  lastSignal : Int
  receivedSignal : Int
  deriving DecidableEq, Repr

/-- No handler registered. -/
def Handlers.none : Handlers := ⟨false, false, false, false, false, false⟩

/-- Go: `func New(pid int) *Tracer { return &Tracer{pid: pid} }`, every other field zero. -/
def New (pid : Int) : Tracer :=
  { handlers := Handlers.none, pid := pid, cmd := false, isExit := false, lastCall := Option.none,
    lastSignal := 0, receivedSignal := 0 }

/-- The errors `waitForSyscall` can return. -/
inductive TraceError where
  /-- The sentinel `errExited`. -/
  | exited
  /-- Line 157, "could not intercept syscall: %w". -/
  | intercept (errno : Int)
  /-- Line 164, "wait failed: %w". -/
  | waitFailed (errno : Int)
  /-- Line 183, the error of `getSignalInfo`, returned as it is. -/
  | signalInfo (code : Int)
  /-- Line 199, the errno of the inner `PtraceSyscall`, returned as it is. -/
  | errno (errno : Int)
  /-- Line 209, "failed to read registers: %w". -/
  | readRegs (errno : Int)
  /-- Line 216, "expecting syscall but received -1". -/
  | unknownSyscall
  /-- Line 224, "syscall exit mismatch: %d != %d". -/
  | exitMismatch (number lastNumber : Int)
  /-- Line 229, "populate failed: %w". -/
  | populate (code : Int)
  deriving DecidableEq, Repr

/-- What the tracer does to the outside, in program order. -/
inductive Effect where
  | ptraceSyscall (pid sig : Int)
  /-- A `Wait4` on `pid`; `status` is what it reported, `none` when it failed. -/
  | wait4 (pid : Int) (status : Option WaitStatus)
  | getSignalInfo (pid : Int)
  | ptraceGetRegs (pid : Int)
  /-- The call `call.populate(isExit)`, with the event as it is handed over. -/
  | populate (call : Syscall) (isExit : Bool)
  | sleep (ms : Nat)
  | syscallExit (call : Syscall)
  | syscallEnter (call : Syscall)
  | signal (info : SigInfo)
  | processExit (code : Int)
  | attach (pid : Int)
  | detach (pid : Int)
  | findProcess (pid : Int)
  | ptraceAttach (pid : Int)
  | ptraceDetach (pid : Int)
  | ptraceSetOptions (pid : Int)
  deriving DecidableEq, Repr

/-- The parts of the package that `waitForSyscall` calls and that are not in the sources at hand:
`parseSyscall(regs)`, `call.populate(isExit)` (a pointer method: it may rewrite the event, or
fail with an error) and the constant `unix.SYS_READ`. -/
structure Decoder where
  parseSyscall : PtraceRegs → Syscall
  populate : Syscall → Bool → Except Int Syscall
  sysRead : Int

/-- Modelled from the spec: `(*Syscall).populate` is not in the sources at hand. The spec says of
an exit-phase event whose number matches the prior enter-phase event that "its argument/path
fields are copied from that prior event rather than re-read": at exit `populate` leaves `args`
and `paths` as it is handed them. -/
def Decoder.keepsCopiedFields (d : Decoder) : Prop :=
  ∀ call populated, d.populate call true = Except.ok populated →
    populated.args = call.args ∧ populated.paths = call.paths

/-- The answers of the kernel (and of the signal listener started by `Start`) during one
iteration of the loop. A request that the iteration does not make leaves its answer unused. -/
structure World where
  /-- Outer `PtraceSyscall`, line 155: `none` is success, `some e` is errno `e`. -/
  resume : Option Int
  /-- `Wait4`, line 162: the errno or the reported status. -/
  wait : Except Int WaitStatus
  /-- `getSignalInfo`, line 181. -/
  sigInfo : Except Int SigInfo
  /-- What the listener goroutine (lines 127-131) last wrote to `receivedSignal` since the
  iteration began, as seen by the read at line 189; `none` when it wrote nothing. -/
  sigBeforeJobCheck : Option Int
  /-- Inner `PtraceSyscall`, line 198. -/
  innerResume : Option Int
  /-- `PtraceGetRegs`, line 208. -/
  regs : Except Int PtraceRegs
  /-- What the listener goroutine wrote after that and before the read at line 146. -/
  sigBeforeLoopCheck : Option Int

/-- The result of one call of `waitForSyscall`: the session afterwards, the effects of the call,
and the returned error (`none` is nil). -/
structure Step where
  tracer : Tracer
  effects : List Effect
  err : Option TraceError
  deriving DecidableEq, Repr

/-- The listener's `t.receivedSignal = sig.(syscall.Signal)` (line 129). -/
def listen (t : Tracer) : Option Int → Tracer
  | Option.none => t
  | some sig => { t with receivedSignal := sig }

/-- Put effects in front of those of a step. -/
def Step.after (es : List Effect) (s : Step) : Step :=
  { s with effects := es ++ s.effects }

/-! ## `waitForSyscall` -/

/-- Lines 188-203: the job-control part of the signal path. -/
def jobControl (t : Tracer) (w : World) (status : WaitStatus) : Step :=
  let sig := status.StopSignal
  if sig == SIGSTOP || sig == SIGTSTP || sig == SIGTTIN || sig == SIGTTOU then
    let t := listen t w.sigBeforeJobCheck
    if t.receivedSignal != 0 then
      ⟨t, [], Option.none⟩
    else
      ⟨{ t with lastSignal := status.StopSignal }, [], Option.none⟩
  else if t.lastSignal != 0 then
    if status.StopSignal == SIGCONT then
      ⟨{ t with lastSignal := 0 }, [], Option.none⟩
    else
      match w.innerResume with
      | some errno =>
        if errno != ESRCH then
          ⟨t, [Effect.ptraceSyscall t.pid t.lastSignal], some (TraceError.errno errno)⟩
        else
          ⟨t, [Effect.ptraceSyscall t.pid t.lastSignal], Option.none⟩
      | Option.none => ⟨t, [Effect.ptraceSyscall t.pid t.lastSignal], Option.none⟩
  else
    ⟨t, [], Option.none⟩

/-- Lines 178-204: the signal path. -/
def signalStop (t : Tracer) (w : World) (status : WaitStatus) : Step :=
  if t.handlers.signal then
    match w.sigInfo with
    | Except.error code => ⟨t, [Effect.getSignalInfo t.pid], some (TraceError.signalInfo code)⟩
    | Except.ok info =>
      (jobControl t w status).after [Effect.getSignalInfo t.pid, Effect.signal info]
  else
    jobControl t w status

/-- Lines 219-226: the pairing check; in exit phase with a recorded event the numbers must agree
and the recorded `args` and `paths` are copied into the new event. -/
def pairWithLast (t : Tracer) (call : Syscall) : Except TraceError Syscall :=
  match t.isExit, t.lastCall with
  | true, some last =>
    if call.number == last.number then
      Except.ok { call with args := last.args, paths := last.paths }
    else
      Except.error (TraceError.exitMismatch call.number last.number)
  | _, _ => Except.ok call

/-- Lines 232-242: the handler calls for a populated event. -/
def dispatch (d : Decoder) (t : Tracer) (call : Syscall) : List Effect :=
  if t.isExit then
    if t.handlers.syscallExit then [Effect.syscallExit call] else []
  else if t.handlers.syscallEnter then
    (if call.number == d.sysRead then [Effect.sleep 50] else []) ++ [Effect.syscallEnter call]
  else
    []

/-- Lines 206-245: the syscall path. -/
def syscallStop (d : Decoder) (t : Tracer) (w : World) : Step :=
  match w.regs with
  | Except.error errno => ⟨t, [Effect.ptraceGetRegs t.pid], some (TraceError.readRegs errno)⟩
  | Except.ok regs =>
    let call : Syscall := { d.parseSyscall regs with pid := t.pid }
    if call.number == -1 then
      ⟨t, [Effect.ptraceGetRegs t.pid], some TraceError.unknownSyscall⟩
    else
      match pairWithLast t call with
      | Except.error e => ⟨t, [Effect.ptraceGetRegs t.pid], some e⟩
      | Except.ok handed =>
        match d.populate handed t.isExit with
        | Except.error code =>
          ⟨t, [Effect.ptraceGetRegs t.pid, Effect.populate handed t.isExit],
            some (TraceError.populate code)⟩
        | Except.ok populated =>
          ⟨{ t with lastCall := some populated, isExit := !t.isExit },
            [Effect.ptraceGetRegs t.pid, Effect.populate handed t.isExit] ++
              dispatch d t populated,
            Option.none⟩

/-- Lines 167-245: what `waitForSyscall` does with the status a successful wait reported. -/
def classify (d : Decoder) (t : Tracer) (w : World) (status : WaitStatus) : Step :=
  if status.TrapCause != -1 then
    ⟨t, [], Option.none⟩
  else if status.Exited then
    ⟨t, if t.handlers.processExit then [Effect.processExit status.ExitStatus] else [],
      some TraceError.exited⟩
  else if status.StopSignal != SIGTRAP_SYSGOOD then
    signalStop t w status
  else
    syscallStop d t w

/-- Go: `func (t *Tracer) waitForSyscall() error`. -/
def waitForSyscall (d : Decoder) (t : Tracer) (w : World) : Step :=
  match w.resume with
  | some errno => ⟨t, [Effect.ptraceSyscall t.pid t.lastSignal], some (TraceError.intercept errno)⟩
  | Option.none =>
    match w.wait with
    | Except.error errno =>
      ⟨t, [Effect.ptraceSyscall t.pid t.lastSignal, Effect.wait4 t.pid Option.none],
        some (TraceError.waitFailed errno)⟩
    | Except.ok status =>
      (classify d t w status).after
        [Effect.ptraceSyscall t.pid t.lastSignal, Effect.wait4 t.pid (some status)]

/-! ## `loop` -/

/-- How a run of `loop` over finitely many kernel answers ends: it returned (`none` is nil), or
it is about to start an iteration for which no answers are left. -/
inductive Outcome where
  | returned (err : Option TraceError)
  | running
  deriving DecidableEq, Repr

/-- The result of a run of `loop`. -/
structure Run where
  tracer : Tracer
  effects : List Effect
  outcome : Outcome
  deriving DecidableEq, Repr

/-- Put effects in front of those of a run. -/
def Run.after (es : List Effect) (r : Run) : Run :=
  { r with effects := es ++ r.effects }

/-- Go: `func (t *Tracer) loop() error`, one `World` per iteration. -/
def loop (d : Decoder) : Tracer → List World → Run
  | t, [] => ⟨t, [], Outcome.running⟩
  | t, w :: ws =>
    let s := waitForSyscall d t w
    match s.err with
    | some err =>
      if err = TraceError.exited then
        ⟨s.tracer, s.effects, Outcome.returned Option.none⟩
      else
        ⟨s.tracer, s.effects, Outcome.returned (some err)⟩
    | Option.none =>
      let t1 := listen s.tracer w.sigBeforeLoopCheck
      if t1.receivedSignal > 0 then
        ⟨t1, s.effects, Outcome.returned Option.none⟩
      else
        (loop d t1 ws).after s.effects

/-! ## Example inputs -/

/-- An example decoder with the amd64 numbering (`read` is 0, `open` is 2): the first register
holds the syscall number as a 64-bit two's complement value, the other registers are the raw
arguments, and `populate` leaves the event as it is. -/
def plainDecoder : Decoder where
  parseSyscall := fun regs =>
    match regs with
    | [] => ⟨0, -1, [], [], []⟩
    | n :: rest => ⟨0, if n < 2 ^ 63 then (n : Int) else (n : Int) - 2 ^ 64, rest.map Int.ofNat, [], []⟩
  populate := fun call _ => Except.ok call
  sysRead := 0

/-- A wait status for a stop with signal `sig` (below 256): `sig<<8 | 0x7F`. -/
def stopStatus (sig : Nat) : WaitStatus := sig * 256 + 127

/-- A wait status for an exit with code `code` (below 256): `code<<8`. -/
def exitStatus (code : Nat) : WaitStatus := code * 256

/-- A world in which every kernel call succeeds, the wait reports `status`, the registers read
`regs`, and the listener writes nothing. -/
def calmWorld (status : WaitStatus) (regs : PtraceRegs) : World :=
  { resume := Option.none, wait := Except.ok status, sigInfo := Except.ok ⟨0, 0⟩,
    sigBeforeJobCheck := Option.none, innerResume := Option.none, regs := Except.ok regs,
    sigBeforeLoopCheck := Option.none }

/-- A world reporting a syscall stop (`SIGTRAP|0x80`) with register snapshot `regs`. -/
def syscallWorld (regs : PtraceRegs) : World := calmWorld (stopStatus 133) regs

/-- A fresh session on pid 7 with both syscall handlers registered. -/
def watched : Tracer :=
  { New 7 with handlers := { Handlers.none with syscallEnter := true, syscallExit := true } }

/-- The `open` of the example scenario: number 2 with two raw arguments. -/
def openEnter : World := syscallWorld [2, 10, 20]

/-- The stop at the exit of that `open`: same number, other register contents. -/
def openExit : World := syscallWorld [2, 99, 98]

/-! ## Classes of effects -/

/-- The effect is a call of the process-exit handler. -/
def Effect.isProcessExit : Effect → Bool
  | Effect.processExit _ => true
  | _ => false

/-- The effect is a `Wait4`. -/
def Effect.isWait4 : Effect → Bool
  | Effect.wait4 _ _ => true
  | _ => false

/-- Neither a wait nor a call of the process-exit handler. -/
def Effect.quiet (e : Effect) : Bool := !e.isProcessExit && !e.isWait4

/-- A stop with plain SIGTRAP that reports the ptrace event 4 (`exec`):
`(4<<8 | SIGTRAP)<<8 | 0x7F`. -/
def execTrapStatus : WaitStatus := (4 * 256 + 5) * 256 + 127

/-- A session on pid 7 with only the signal handler registered. -/
def signalWatched : Tracer :=
  { New 7 with handlers := { Handlers.none with signal := true } }

/-- A world as `calmWorld`, during which the listener records SIGINT before `loop` reads the
flag. -/
def interruptedWorld (status : WaitStatus) (regs : PtraceRegs) : World :=
  { calmWorld status regs with sigBeforeLoopCheck := some 2 }

/-- The effect is a call of a syscall handler or a pause. -/
def Effect.isDispatchOrPause : Effect → Bool
  | Effect.syscallEnter _ => true
  | Effect.syscallExit _ => true
  | Effect.sleep _ => true
  | _ => false

/-- The effect is a signal-info query. -/
def Effect.isGetSignalInfo : Effect → Bool
  | Effect.getSignalInfo _ => true
  | _ => false

/-- Every resume among the effects is `PtraceSyscall(pid, sig)`. -/
def Effect.resumesWith (pid sig : Int) : Effect → Bool
  | Effect.ptraceSyscall p s => p == pid && s == sig
  | _ => true

/-- The signal is one of the job-control stop signals of line 188. -/
def isJobControl (sig : Int) : Bool :=
  sig == SIGSTOP || sig == SIGTSTP || sig == SIGTTIN || sig == SIGTTOU

/-- The effects the syscall path can have. -/
def Effect.onSyscallPath : Effect → Bool
  | Effect.ptraceGetRegs _ => true
  | Effect.populate _ _ => true
  | Effect.sleep _ => true
  | Effect.syscallExit _ => true
  | Effect.syscallEnter _ => true
  | _ => false

/-- The effects an iteration of the loop can have; the others belong to `Start`. -/
def Effect.inLoop : Effect → Bool
  | Effect.attach _ => false
  | Effect.detach _ => false
  | Effect.findProcess _ => false
  | Effect.ptraceAttach _ => false
  | Effect.ptraceDetach _ => false
  | Effect.ptraceSetOptions _ => false
  | _ => true

/-! ## Sequences of iterations -/

/-- The kernel lets the resume and the wait succeed and reports a stop with the syscall-trap
tag. -/
def World.isSyscallStop (w : World) : Bool :=
  match w.resume, w.wait with
  | Option.none, Except.ok st => st.StopSignal == SIGTRAP_SYSGOOD
  | _, _ => false

/-- One iteration in the history of a session: the session before it, the kernel's answers, and
what `waitForSyscall` made of them. -/
structure Iteration where
  before : Tracer
  world : World
  step : Step

/-- The iteration handled a syscall stop and returned nil. -/
def Iteration.isDispatch (it : Iteration) : Bool :=
  it.world.isSyscallStop && it.step.err.isNone

/-- Any sequence of `waitForSyscall` iterations on a session, one per `World`, whatever they
return; between two iterations the listener may write `receivedSignal`. -/
def iterations (d : Decoder) : Tracer → List World → List Iteration
  | _, [] => []
  | t, w :: ws =>
    ⟨t, w, waitForSyscall d t w⟩ ::
      iterations d (listen (waitForSyscall d t w).tracer w.sigBeforeLoopCheck) ws

/-- The session such a sequence of iterations leaves. -/
def sessionAfter (d : Decoder) : Tracer → List World → Tracer
  | t, [] => t
  | t, w :: ws => sessionAfter d (listen (waitForSyscall d t w).tracer w.sigBeforeLoopCheck) ws

/-- The syscall stops of such a sequence that returned nil, in order. -/
def dispatched (d : Decoder) (t : Tracer) (ws : List World) : List Iteration :=
  (iterations d t ws).filter Iteration.isDispatch

/-- The iterations of the list start in alternating phases, beginning with `phase`, and each
starts with the `lastCall` its predecessor left, the first with `last`. -/
def alternates : Bool → Option Syscall → List Iteration → Prop
  | _, _, [] => True
  | phase, last, it :: rest =>
    it.before.isExit = phase ∧ it.before.lastCall = last ∧
      alternates (!phase) it.step.tracer.lastCall rest

/-! ## `Start` -/

/-- The answers of the kernel to the requests `Start` makes outside the loop. -/
structure StartWorld where
  /-- `os.FindProcess`, line 86: `none` is success. -/
  findProcess : Option Int
  /-- `PtraceAttach`, line 91 (attach mode only): `none` is success, `some e` is errno `e`. -/
  attach : Option Int
  /-- `Wait4` for the initial stop, line 103. -/
  initialWait : Except Int WaitStatus
  /-- `PtraceSetOptions`, line 121. -/
  setOptions : Option Int
  /-- `PtraceDetach` in the deferred cleanup, line 115; the code discards the answer. -/
  detach : Option Int
  /-- `Wait4` in the deferred cleanup, line 116; the code discards the error. -/
  finalWait : Except Int WaitStatus

/-- The errors `Start` can return. -/
inductive StartError where
  /-- Line 87, "could not find process with pid %d: %w". -/
  | findProcess (err : Int)
  /-- Line 92, "could not attach to process with pid %d: %w - check your permissions". -/
  | permission (errno : Int)
  /-- Lines 94, 104 and 122: the errno, returned as it is. -/
  | errno (errno : Int)
  /-- Line 133: the error `loop` returned. -/
  | trace (err : TraceError)
  deriving DecidableEq, Repr

/-- How a run of `Start` over finitely many kernel answers ends: it returned (`none` is nil), or
its loop is about to start an iteration for which no answers are left. -/
inductive StartOutcome where
  | returned (err : Option StartError)
  | running
  deriving DecidableEq, Repr

/-- The result of a run of `Start`. -/
structure StartRun where
  tracer : Tracer
  effects : List Effect
  outcome : StartOutcome
  deriving DecidableEq, Repr

/-- The status a wait reported, `none` when it failed. -/
def waited : Except Int WaitStatus → Option WaitStatus
  | Except.ok st => some st
  | Except.error _ => Option.none

/-- Lines 107-118, the deferred functions in the order in which they run when `Start` returns
(last deferred first): in attach mode `PtraceDetach` and a wait, both with the result discarded,
then the detach handler if one is registered. -/
def deferred (attachMode : Bool) (t : Tracer) (sw : StartWorld) : List Effect :=
  (if attachMode then [Effect.ptraceDetach t.pid, Effect.wait4 t.pid (waited sw.finalWait)]
    else []) ++
  (if t.handlers.detach then [Effect.detach t.pid] else [])

/-- Lines 90-96: the attach request, made when the tracer owns no child command. -/
def attachStep (t : Tracer) (sw : StartWorld) : List Effect × Option StartError :=
  if t.cmd then
    ([], Option.none)
  else
    match sw.attach with
    | Option.none => ([Effect.ptraceAttach t.pid], Option.none)
    | some errno =>
      if errno == EPERM then
        ([Effect.ptraceAttach t.pid], some (StartError.permission errno))
      else
        ([Effect.ptraceAttach t.pid], some (StartError.errno errno))

/-- Go: `func (t *Tracer) Start() error`, with one `World` per iteration of its loop. The calls
`runtime.LockOSThread` and `signal.Notify` are not recorded as effects; what the listener
goroutine writes is part of the worlds. -/
def Start (d : Decoder) (t : Tracer) (sw : StartWorld) (ws : List World) : StartRun :=
  match sw.findProcess with
  | some err =>
    ⟨t, [Effect.findProcess t.pid], StartOutcome.returned (some (StartError.findProcess err))⟩
  | Option.none =>
    match (attachStep t sw).2 with
    | some err =>
      ⟨t, [Effect.findProcess t.pid] ++ (attachStep t sw).1, StartOutcome.returned (some err)⟩
    | Option.none =>
      let attached := [Effect.findProcess t.pid] ++ (attachStep t sw).1 ++
        (if t.handlers.attach then [Effect.attach t.pid] else [])
      match sw.initialWait with
      | Except.error errno =>
        ⟨t, attached ++ [Effect.wait4 t.pid Option.none],
          StartOutcome.returned (some (StartError.errno errno))⟩
      | Except.ok st =>
        match sw.setOptions with
        | some errno =>
          ⟨t, attached ++ [Effect.wait4 t.pid (some st), Effect.ptraceSetOptions t.pid] ++
              deferred (!t.cmd) t sw,
            StartOutcome.returned (some (StartError.errno errno))⟩
        | Option.none =>
          let r := loop d t ws
          match r.outcome with
          | Outcome.running =>
            ⟨r.tracer, attached ++ [Effect.wait4 t.pid (some st), Effect.ptraceSetOptions t.pid]
              ++ r.effects, StartOutcome.running⟩
          | Outcome.returned err =>
            ⟨r.tracer, attached ++ [Effect.wait4 t.pid (some st), Effect.ptraceSetOptions t.pid]
              ++ r.effects ++ deferred (!t.cmd) r.tracer sw,
              StartOutcome.returned (err.map StartError.trace)⟩

/-- The effect belongs to the cleanup of `Start`: `PtraceDetach` or a call of the detach
handler. -/
def Effect.isCleanup : Effect → Bool
  | Effect.ptraceDetach _ => true
  | Effect.detach _ => true
  | _ => false

/-- The effect is a call of the attach handler. -/
def Effect.isAttach : Effect → Bool
  | Effect.attach _ => true
  | _ => false

/-- A world for `Start` in which every request succeeds and both waits report a SIGSTOP stop. -/
def calmStart : StartWorld :=
  { findProcess := Option.none, attach := Option.none, initialWait := Except.ok (stopStatus 19),
    setOptions := Option.none, detach := Option.none, finalWait := Except.ok (stopStatus 19) }

/-- A session attached to pid 7 with the attach, detach and both syscall handlers registered. -/
def attachedWatched : Tracer :=
  { New 7 with
    handlers := { Handlers.none with
      syscallEnter := true, syscallExit := true, attach := true, detach := true } }

/-! ## `tampering` -/

/-- The package `filter`, which belongs to another module, as far as `tampering` calls it:
`filter.Parse(input)`, which returns a filter pointer and an error, either of which may be nil,
and `(*Filter).Match(call, exit)`. -/
structure FilterPackage (F E : Type) where
  Parse : String → Option F × Option E
  Match : F → Syscall → Bool → Bool

/-- What a call of `tampering.Parse` returns, and the package variable `tamper` afterwards. -/
structure Parsed (F E : Type) where
  filter : Option F
  err : Option E
  tamper : Option F

/-- Go: `func Parse(input string) (*filter.Filter, error)`, on the package variable `tamper`. -/
def Parse {F E : Type} (pkg : FilterPackage F E) (tamper : Option F) (input : String) :
    Parsed F E :=
  if input == "" then
    ⟨Option.none, Option.none, tamper⟩
  else
    match pkg.Parse input with
    | (_, some err) => ⟨Option.none, some err, tamper⟩
    | (f, Option.none) => ⟨f, Option.none, f⟩

/-- The package variable `tamper` after a sequence of calls of `Parse`. -/
def parseAll {F E : Type} (pkg : FilterPackage F E) : Option F → List String → Option F
  | tamper, [] => tamper
  | tamper, input :: inputs => parseAll pkg (Parse pkg tamper input).tamper inputs

/-- The input is not empty and `filter.Parse` returns no error for it. -/
def accepted {F E : Type} (pkg : FilterPackage F E) (input : String) : Bool :=
  input != "" && (pkg.Parse input).2.isNone

/-- What `Delay` does to the outside. -/
inductive DelayEffect (F : Type) where
  /-- The call `tamper.Match(syscall, exit)`. -/
  | matchCall (f : F) (call : Syscall) (exit : Bool)
  /-- `time.Sleep` for so many milliseconds. -/
  | sleep (ms : Nat)
  deriving DecidableEq, Repr

/-- The result of a call of `Delay`: the package variable `tamper` afterwards and the effects. -/
structure Delayed (F : Type) where
  tamper : Option F
  effects : List (DelayEffect F)
  deriving DecidableEq, Repr

/-- Go: `func Delay(syscall *tracer.Syscall)`; `time.Second` is 1000 ms. -/
def Delay {F E : Type} (pkg : FilterPackage F E) (tamper : Option F) (syscall : Syscall) :
    Delayed F :=
  match tamper with
  | Option.none => ⟨tamper, []⟩
  | some f =>
    ⟨tamper, DelayEffect.matchCall f syscall true ::
      (if pkg.Match f syscall true then [DelayEffect.sleep 1000] else [])⟩

/-- An example filter package: a filter is a syscall number, written as the name `read` (0) or
`open` (2); any other input is an error; a filter matches the events with its number, in either
view. -/
def numberFilters : FilterPackage Int String where
  Parse := fun input =>
    if input = "read" then (some 0, Option.none)
    else if input = "open" then (some 2, Option.none)
    else (Option.none, some "unknown syscall")
  Match := fun f call _ => call.number == f

/-! ## Facts about wait statuses -/

theorem sysgood_value : SIGTRAP_SYSGOOD = 133 := by decide

theorem low_bits_of_stopped (n : Nat) (h : n % 256 = 127) : n % 128 ≠ 0 := by omega

theorem stopSignal_stopped (st : WaitStatus) (sig : Int) (h : st.StopSignal = sig)
    (hsig : sig ≠ -1) : st % 256 = 127 := by
  unfold WaitStatus.StopSignal WaitStatus.Stopped at h
  by_cases hs : st % 256 = 127
  · exact hs
  · simp [hs] at h
    exact absurd h.symm hsig

theorem trapCause_of_stopSignal (st : WaitStatus) (h : st.StopSignal ≠ SIGTRAP) :
    st.TrapCause = -1 := by
  unfold WaitStatus.TrapCause
  simp [h]

theorem not_exited_of_stopSignal (st : WaitStatus) (sig : Int) (h : st.StopSignal = sig)
    (hsig : sig ≠ -1) : st.Exited = false := by
  have h1 : (st : Nat) % 256 = 127 := stopSignal_stopped st sig h hsig
  have h2 : (st : Nat) % 128 ≠ 0 := low_bits_of_stopped st h1
  unfold WaitStatus.Exited
  simp [h2]

theorem classify_sysgood (d : Decoder) (t : Tracer) (w : World) (st : WaitStatus)
    (h : st.StopSignal = SIGTRAP_SYSGOOD) : classify d t w st = syscallStop d t w := by
  have h1 : st.TrapCause = -1 :=
    trapCause_of_stopSignal st (by rw [h]; decide)
  have h2 : st.Exited = false := not_exited_of_stopSignal st _ h (by decide)
  unfold classify
  simp [h1, h2, h]

theorem waitForSyscall_waited (d : Decoder) (t : Tracer) (w : World) (st : WaitStatus)
    (hres : w.resume = Option.none) (hwait : w.wait = Except.ok st) :
    waitForSyscall d t w = (classify d t w st).after
      [Effect.ptraceSyscall t.pid t.lastSignal, Effect.wait4 t.pid (some st)] := by
  unfold waitForSyscall
  simp [hres, hwait]

/-! ## One iteration on a syscall stop -/

/-- On the syscall path an error leaves the session as it was, and success records the populated
event, flips the phase and hands that same event to the handler of the phase. -/
theorem syscallStop_cases (d : Decoder) (t : Tracer) (w : World) :
    ((syscallStop d t w).err ≠ Option.none ∧ (syscallStop d t w).tracer = t) ∨
    ((syscallStop d t w).err = Option.none ∧
      ∃ handed call, d.populate handed t.isExit = Except.ok call ∧
        (syscallStop d t w).tracer = { t with lastCall := some call, isExit := !t.isExit } ∧
        (syscallStop d t w).effects =
          [Effect.ptraceGetRegs t.pid, Effect.populate handed t.isExit] ++ dispatch d t call) := by
  unfold syscallStop
  cases hr : w.regs with
  | error errno => simp
  | ok regs =>
    simp only
    split
    · simp
    · cases hp : pairWithLast t { d.parseSyscall regs with pid := t.pid } with
      | error e => simp
      | ok handed =>
        simp only
        cases hq : d.populate handed t.isExit with
        | error code => simp
        | ok call =>
          right
          exact ⟨rfl, handed, call, hq, rfl, rfl⟩

/-- C1: on a stop tagged as a syscall trap (stop signal SIGTRAP|0x80), one iteration of
`waitForSyscall` either returns an error and leaves `isExit` (and `lastCall`) as they were, or
returns nil having negated `isExit` once and recorded as `lastCall` the very event it handed to
the handler of the phase; it never returns nil with `isExit` unchanged. -/
theorem waitForSyscall_trap_flips_phase (d : Decoder) (t : Tracer) (w : World) (st : WaitStatus)
    (hres : w.resume = Option.none) (hwait : w.wait = Except.ok st)
    (htag : st.StopSignal = SIGTRAP_SYSGOOD) :
    (((waitForSyscall d t w).err ≠ Option.none ∧
        (waitForSyscall d t w).tracer.isExit = t.isExit ∧
        (waitForSyscall d t w).tracer.lastCall = t.lastCall) ∨
      ((waitForSyscall d t w).err = Option.none ∧
        (waitForSyscall d t w).tracer.isExit = (!t.isExit) ∧
        ∃ handed call, d.populate handed t.isExit = Except.ok call ∧
          (waitForSyscall d t w).tracer.lastCall = some call ∧
          (waitForSyscall d t w).effects =
            [Effect.ptraceSyscall t.pid t.lastSignal, Effect.wait4 t.pid (some st),
              Effect.ptraceGetRegs t.pid, Effect.populate handed t.isExit] ++
              dispatch d t call)) ∧
    ¬ ((waitForSyscall d t w).err = Option.none ∧
        (waitForSyscall d t w).tracer.isExit = t.isExit) := by
  rw [waitForSyscall_waited d t w st hres hwait, classify_sysgood d t w st htag]
  simp only [Step.after]
  rcases syscallStop_cases d t w with ⟨he, ht⟩ | ⟨he, handed, call, hq, ht, hes⟩
  · refine ⟨Or.inl ⟨he, ?_, ?_⟩, fun h => he h.1⟩
    · rw [ht]
    · rw [ht]
  · refine ⟨Or.inr ⟨he, ?_, handed, call, hq, ?_, ?_⟩, fun h => ?_⟩
    · rw [ht]
    · rw [ht]
    · rw [hes]; rfl
    · have := h.2
      rw [ht] at this
      cases hb : t.isExit <;> simp [hb] at this

/-- C1, at a concrete input: the first syscall stop of a fresh session. -/
theorem waitForSyscall_trap_flips_phase_witness :
    (((waitForSyscall plainDecoder watched (syscallWorld [2, 10, 20])).err ≠ Option.none ∧
        (waitForSyscall plainDecoder watched (syscallWorld [2, 10, 20])).tracer.isExit
          = watched.isExit ∧
        (waitForSyscall plainDecoder watched (syscallWorld [2, 10, 20])).tracer.lastCall
          = watched.lastCall) ∨
      ((waitForSyscall plainDecoder watched (syscallWorld [2, 10, 20])).err = Option.none ∧
        (waitForSyscall plainDecoder watched (syscallWorld [2, 10, 20])).tracer.isExit
          = (!watched.isExit) ∧
        ∃ handed call, plainDecoder.populate handed watched.isExit = Except.ok call ∧
          (waitForSyscall plainDecoder watched (syscallWorld [2, 10, 20])).tracer.lastCall
            = some call ∧
          (waitForSyscall plainDecoder watched (syscallWorld [2, 10, 20])).effects =
            [Effect.ptraceSyscall watched.pid watched.lastSignal,
              Effect.wait4 watched.pid (some (stopStatus 133)),
              Effect.ptraceGetRegs watched.pid, Effect.populate handed watched.isExit] ++
              dispatch plainDecoder watched call)) ∧
    ¬ ((waitForSyscall plainDecoder watched (syscallWorld [2, 10, 20])).err = Option.none ∧
        (waitForSyscall plainDecoder watched (syscallWorld [2, 10, 20])).tracer.isExit
          = watched.isExit) :=
  waitForSyscall_trap_flips_phase plainDecoder watched (syscallWorld [2, 10, 20])
    (stopStatus 133) rfl rfl (by decide)

@[simp]
theorem listen_isExit (t : Tracer) (o : Option Int) : (listen t o).isExit = t.isExit := by
  cases o <;> rfl

@[simp]
theorem listen_lastCall (t : Tracer) (o : Option Int) :
    (listen t o).lastCall = t.lastCall := by
  cases o <;> rfl

@[simp]
theorem listen_lastSignal (t : Tracer) (o : Option Int) :
    (listen t o).lastSignal = t.lastSignal := by
  cases o <;> rfl

@[simp]
theorem listen_pid (t : Tracer) (o : Option Int) : (listen t o).pid = t.pid := by
  cases o <;> rfl

@[simp]
theorem listen_handlers (t : Tracer) (o : Option Int) :
    (listen t o).handlers = t.handlers := by
  cases o <;> rfl

/-- In exit phase with a recorded event, a syscall stop that returns nil decoded the recorded
number, handed `populate` the decoded event with the recorded `args` and `paths`, and gave the
exit handler (when there is one) what `populate` returned. -/
theorem syscallStop_exit_ok (d : Decoder) (t : Tracer) (w : World) (last : Syscall)
    (regs : PtraceRegs) (hphase : t.isExit = true) (hlast : t.lastCall = some last)
    (hregs : w.regs = Except.ok regs) (hok : (syscallStop d t w).err = Option.none) :
    (d.parseSyscall regs).number = last.number ∧
    ∃ call,
      d.populate { d.parseSyscall regs with pid := t.pid, args := last.args, paths := last.paths }
        true = Except.ok call ∧
      (syscallStop d t w).tracer = { t with lastCall := some call, isExit := false } ∧
      (syscallStop d t w).effects =
        [Effect.ptraceGetRegs t.pid,
          Effect.populate
            { d.parseSyscall regs with pid := t.pid, args := last.args, paths := last.paths } true]
          ++ (if t.handlers.syscallExit then [Effect.syscallExit call] else []) := by
  unfold syscallStop at hok ⊢
  simp only [hregs] at hok ⊢
  generalize d.parseSyscall regs = p at hok ⊢
  obtain ⟨ppid, num, args, paths, rest⟩ := p
  simp only [pairWithLast, hphase, hlast, beq_iff_eq] at hok ⊢
  by_cases hm : num = last.number
  · subst hm
    by_cases hn : last.number = -1
    · simp [hn] at hok
    · simp only [hn, if_true, if_false, Bool.not_true] at hok ⊢
      refine ⟨trivial, ?_⟩
      cases hq : d.populate ⟨t.pid, last.number, last.args, last.paths, rest⟩ true with
      | error code => simp [hq] at hok
      | ok call => exact ⟨call, rfl, by simp, by simp [dispatch, hphase]⟩
  · by_cases hn : num = -1
    · simp [hn] at hok
    · simp [hn, hm] at hok

/-- C2: of two consecutive syscall stops of a session that start in enter phase and both return
nil, with a `populate` that at exit leaves `args` and `paths` as it is handed them, the second
stop decodes the number recorded at the first, and the event given to the exit handler has the
`args` and `paths` of the enter event given to the enter handler just before: the event handed to
`populate` at exit carries the `args` and `paths` of the recorded enter event (`lastCall`), not
those decoded from the exit-time registers. -/
theorem exit_event_built_from_enter_event (d : Decoder) (t : Tracer) (w1 w2 : World)
    (st1 st2 : WaitStatus) (regs2 : PtraceRegs) (hkeep : d.keepsCopiedFields)
    (hphase : t.isExit = false)
    (hres1 : w1.resume = Option.none) (hwait1 : w1.wait = Except.ok st1)
    (htag1 : st1.StopSignal = SIGTRAP_SYSGOOD)
    (hok1 : (waitForSyscall d t w1).err = Option.none)
    (hres2 : w2.resume = Option.none) (hwait2 : w2.wait = Except.ok st2)
    (htag2 : st2.StopSignal = SIGTRAP_SYSGOOD) (hregs2 : w2.regs = Except.ok regs2)
    (hok2 : (waitForSyscall d
      (listen (waitForSyscall d t w1).tracer w1.sigBeforeLoopCheck) w2).err = Option.none) :
    ∃ handed enter leave,
      (waitForSyscall d t w1).tracer.lastCall = some enter ∧
      (waitForSyscall d t w1).effects =
        [Effect.ptraceSyscall t.pid t.lastSignal, Effect.wait4 t.pid (some st1),
          Effect.ptraceGetRegs t.pid, Effect.populate handed false] ++ dispatch d t enter ∧
      (d.parseSyscall regs2).number = enter.number ∧
      d.populate
        { d.parseSyscall regs2 with pid := t.pid, args := enter.args, paths := enter.paths }
        true = Except.ok leave ∧
      (waitForSyscall d
        (listen (waitForSyscall d t w1).tracer w1.sigBeforeLoopCheck) w2).effects =
        [Effect.ptraceSyscall t.pid t.lastSignal, Effect.wait4 t.pid (some st2),
          Effect.ptraceGetRegs t.pid,
          Effect.populate
            { d.parseSyscall regs2 with pid := t.pid, args := enter.args, paths := enter.paths }
            true] ++ (if t.handlers.syscallExit then [Effect.syscallExit leave] else []) ∧
      leave.args = enter.args ∧ leave.paths = enter.paths := by
  rw [waitForSyscall_waited d t w1 st1 hres1 hwait1,
    classify_sysgood d t w1 st1 htag1] at hok1 hok2 ⊢
  rw [waitForSyscall_waited d _ w2 st2 hres2 hwait2, classify_sysgood d _ w2 st2 htag2] at hok2 ⊢
  simp only [Step.after] at hok1 hok2 ⊢
  rcases syscallStop_cases d t w1 with ⟨he, _⟩ | ⟨_, handed, enter, _, ht, hes⟩
  · exact absurd hok1 he
  · rw [ht] at hok2 ⊢
    have key := syscallStop_exit_ok d
      (listen { t with lastCall := some enter, isExit := !t.isExit } w1.sigBeforeLoopCheck) w2
      enter regs2 (by simp [hphase]) (by simp) hregs2 hok2
    obtain ⟨hnum, leave, hq, _, hes2⟩ := key
    simp only [listen_pid] at hq
    refine ⟨handed, enter, leave, rfl, ?_, hnum, hq, ?_, ?_⟩
    · rw [hes, hphase]
      rfl
    · rw [hes2]
      simp
    · exact hkeep
        { d.parseSyscall regs2 with pid := t.pid, args := enter.args, paths := enter.paths }
        leave hq

/-- C2 at a concrete input: `open` entered and left under `plainDecoder`, whose `populate`
returns every event as it is; the exit registers hold other values than the enter registers. -/
theorem exit_event_built_from_enter_event_witness :
    ∃ handed enter leave,
      (waitForSyscall plainDecoder watched openEnter).tracer.lastCall = some enter ∧
      (waitForSyscall plainDecoder watched openEnter).effects =
        [Effect.ptraceSyscall watched.pid watched.lastSignal,
          Effect.wait4 watched.pid (some (stopStatus 133)),
          Effect.ptraceGetRegs watched.pid, Effect.populate handed false] ++
          dispatch plainDecoder watched enter ∧
      (plainDecoder.parseSyscall [2, 99, 98]).number = enter.number ∧
      plainDecoder.populate
        { plainDecoder.parseSyscall [2, 99, 98] with
          pid := watched.pid, args := enter.args, paths := enter.paths }
        true = Except.ok leave ∧
      (waitForSyscall plainDecoder
        (listen (waitForSyscall plainDecoder watched openEnter).tracer
          openEnter.sigBeforeLoopCheck) openExit).effects =
        [Effect.ptraceSyscall watched.pid watched.lastSignal,
          Effect.wait4 watched.pid (some (stopStatus 133)),
          Effect.ptraceGetRegs watched.pid,
          Effect.populate
            { plainDecoder.parseSyscall [2, 99, 98] with
              pid := watched.pid, args := enter.args, paths := enter.paths }
            true] ++ (if watched.handlers.syscallExit then [Effect.syscallExit leave] else []) ∧
      leave.args = enter.args ∧ leave.paths = enter.paths :=
  exit_event_built_from_enter_event plainDecoder watched openEnter openExit (stopStatus 133)
    (stopStatus 133) [2, 99, 98]
    (fun call populated h => by
      cases h
      exact ⟨rfl, rfl⟩)
    rfl rfl rfl (by decide) (by decide) rfl rfl (by decide) rfl (by decide)

/-- C3: in exit phase with a recorded event, a syscall stop whose decoded number differs from the
recorded one makes `waitForSyscall` return an error with the session untouched and with no effect
behind the register read (no `populate`, no handler), and `loop` returns that error at once,
whatever kernel answers are still to come. -/
theorem pairing_mismatch_aborts_loop (d : Decoder) (t : Tracer) (w : World) (ws : List World)
    (st : WaitStatus) (regs : PtraceRegs) (last : Syscall)
    (hphase : t.isExit = true) (hlast : t.lastCall = some last)
    (hres : w.resume = Option.none) (hwait : w.wait = Except.ok st)
    (htag : st.StopSignal = SIGTRAP_SYSGOOD) (hregs : w.regs = Except.ok regs)
    (hne : (d.parseSyscall regs).number ≠ last.number) :
    ∃ e, e ≠ TraceError.exited ∧
      (e = TraceError.unknownSyscall ∨
        e = TraceError.exitMismatch (d.parseSyscall regs).number last.number) ∧
      waitForSyscall d t w =
        ⟨t, [Effect.ptraceSyscall t.pid t.lastSignal, Effect.wait4 t.pid (some st),
          Effect.ptraceGetRegs t.pid], some e⟩ ∧
      loop d t (w :: ws) =
        ⟨t, [Effect.ptraceSyscall t.pid t.lastSignal, Effect.wait4 t.pid (some st),
          Effect.ptraceGetRegs t.pid], Outcome.returned (some e)⟩ := by
  have hstep : ∃ e, e ≠ TraceError.exited ∧
      (e = TraceError.unknownSyscall ∨
        e = TraceError.exitMismatch (d.parseSyscall regs).number last.number) ∧
      waitForSyscall d t w =
        ⟨t, [Effect.ptraceSyscall t.pid t.lastSignal, Effect.wait4 t.pid (some st),
          Effect.ptraceGetRegs t.pid], some e⟩ := by
    rw [waitForSyscall_waited d t w st hres hwait, classify_sysgood d t w st htag]
    unfold syscallStop
    simp only [hregs, Step.after]
    by_cases hn : (d.parseSyscall regs).number = -1
    · exact ⟨TraceError.unknownSyscall, by simp, Or.inl rfl, by simp [hn]⟩
    · exact ⟨TraceError.exitMismatch (d.parseSyscall regs).number last.number, by simp,
        Or.inr rfl, by simp [hn, pairWithLast, hphase, hlast, hne]⟩
  obtain ⟨e, hex, hkind, hw⟩ := hstep
  refine ⟨e, hex, hkind, hw, ?_⟩
  simp only [loop, hw]
  simp [hex]

/-- C3 at a concrete input: after `open` was entered, the next syscall stop decodes `read`. -/
theorem pairing_mismatch_aborts_loop_witness :
    ∃ e, e ≠ TraceError.exited ∧
      (e = TraceError.unknownSyscall ∨
        e = TraceError.exitMismatch (plainDecoder.parseSyscall [0, 3]).number
          (⟨7, 2, [10, 20], [], []⟩ : Syscall).number) ∧
      waitForSyscall plainDecoder (waitForSyscall plainDecoder watched openEnter).tracer
          (syscallWorld [0, 3]) =
        ⟨(waitForSyscall plainDecoder watched openEnter).tracer,
          [Effect.ptraceSyscall (waitForSyscall plainDecoder watched openEnter).tracer.pid
              (waitForSyscall plainDecoder watched openEnter).tracer.lastSignal,
            Effect.wait4 (waitForSyscall plainDecoder watched openEnter).tracer.pid
              (some (stopStatus 133)),
            Effect.ptraceGetRegs (waitForSyscall plainDecoder watched openEnter).tracer.pid],
          some e⟩ ∧
      loop plainDecoder (waitForSyscall plainDecoder watched openEnter).tracer
          (syscallWorld [0, 3] :: [openExit]) =
        ⟨(waitForSyscall plainDecoder watched openEnter).tracer,
          [Effect.ptraceSyscall (waitForSyscall plainDecoder watched openEnter).tracer.pid
              (waitForSyscall plainDecoder watched openEnter).tracer.lastSignal,
            Effect.wait4 (waitForSyscall plainDecoder watched openEnter).tracer.pid
              (some (stopStatus 133)),
            Effect.ptraceGetRegs (waitForSyscall plainDecoder watched openEnter).tracer.pid],
          Outcome.returned (some e)⟩ :=
  pairing_mismatch_aborts_loop plainDecoder (waitForSyscall plainDecoder watched openEnter).tracer
    (syscallWorld [0, 3]) [openExit] (stopStatus 133) [0, 3] ⟨7, 2, [10, 20], [], []⟩
    (by decide) (by decide) rfl rfl (by decide) rfl (by decide)

/-! ## What one iteration leaves alone -/

theorem jobControl_frame (t : Tracer) (w : World) (st : WaitStatus) :
    (jobControl t w st).err ≠ some TraceError.exited ∧
    (jobControl t w st).effects.all Effect.quiet = true ∧
    (jobControl t w st).tracer.handlers = t.handlers ∧
    (jobControl t w st).tracer.pid = t.pid ∧
    (jobControl t w st).tracer.isExit = t.isExit ∧
    (jobControl t w st).tracer.lastCall = t.lastCall := by
  unfold jobControl
  simp only
  split
  · split <;> simp
  · split
    · split
      · simp
      · cases w.innerResume with
        | none => simp [Effect.quiet, Effect.isProcessExit, Effect.isWait4]
        | some errno =>
          simp only
          split <;> simp [Effect.quiet, Effect.isProcessExit, Effect.isWait4]
    · simp

theorem signalStop_frame (t : Tracer) (w : World) (st : WaitStatus) :
    (signalStop t w st).err ≠ some TraceError.exited ∧
    (signalStop t w st).effects.all Effect.quiet = true ∧
    (signalStop t w st).tracer.handlers = t.handlers ∧
    (signalStop t w st).tracer.pid = t.pid ∧
    (signalStop t w st).tracer.isExit = t.isExit ∧
    (signalStop t w st).tracer.lastCall = t.lastCall := by
  have h := jobControl_frame t w st
  unfold signalStop
  split
  · cases w.sigInfo with
    | error code => simp [Effect.quiet, Effect.isProcessExit, Effect.isWait4]
    | ok info =>
      simp only [Step.after]
      refine ⟨h.1, ?_, h.2.2⟩
      rw [List.all_append, h.2.1]
      rfl
  · exact h

theorem dispatch_quiet (d : Decoder) (t : Tracer) (call : Syscall) :
    (dispatch d t call).all Effect.quiet = true := by
  unfold dispatch
  split
  · split <;> simp [Effect.quiet, Effect.isProcessExit, Effect.isWait4]
  · split
    · split <;> simp [Effect.quiet, Effect.isProcessExit, Effect.isWait4]
    · simp

theorem syscallStop_frame (d : Decoder) (t : Tracer) (w : World) :
    (syscallStop d t w).err ≠ some TraceError.exited ∧
    (syscallStop d t w).effects.all Effect.quiet = true ∧
    (syscallStop d t w).tracer.handlers = t.handlers ∧
    (syscallStop d t w).tracer.pid = t.pid ∧
    (syscallStop d t w).tracer.lastSignal = t.lastSignal ∧
    (syscallStop d t w).tracer.receivedSignal = t.receivedSignal := by
  unfold syscallStop
  cases w.regs with
  | error errno => simp [Effect.quiet, Effect.isProcessExit, Effect.isWait4]
  | ok regs =>
    simp only
    split
    · simp [Effect.quiet, Effect.isProcessExit, Effect.isWait4]
    · cases hp : pairWithLast t { d.parseSyscall regs with pid := t.pid } with
      | error e =>
        have : e ≠ TraceError.exited := by
          unfold pairWithLast at hp
          split at hp
          · split at hp
            · cases hp
            · cases hp
              simp
          · cases hp
        simp [Effect.quiet, Effect.isProcessExit, Effect.isWait4, this]
      | ok handed =>
        simp only
        cases d.populate handed t.isExit with
        | error code => simp [Effect.quiet, Effect.isProcessExit, Effect.isWait4]
        | ok call =>
          refine ⟨by simp, ?_, rfl, rfl, rfl, rfl⟩
          simp only
          rw [List.all_append, dispatch_quiet d t call]
          rfl

theorem not_stopped_of_low_bits (n : Nat) (h : n % 128 = 0) : n % 256 ≠ 127 := by omega

theorem trapCause_of_exited (st : WaitStatus) (h : st.Exited = true) : st.TrapCause = -1 := by
  have h0 : (st : Nat) % 128 = 0 := by simpa [WaitStatus.Exited] using h
  have h1 : (st : Nat) % 256 ≠ 127 := not_stopped_of_low_bits st h0
  apply trapCause_of_stopSignal
  simp [WaitStatus.StopSignal, WaitStatus.Stopped, h1, SIGTRAP]

theorem classify_exited (d : Decoder) (t : Tracer) (w : World) (st : WaitStatus)
    (h : st.Exited = true) :
    classify d t w st =
      ⟨t, if t.handlers.processExit then [Effect.processExit st.ExitStatus] else [],
        some TraceError.exited⟩ := by
  unfold classify
  simp [trapCause_of_exited st h, h]

theorem classify_frame (d : Decoder) (t : Tracer) (w : World) (st : WaitStatus)
    (h : st.Exited = false) :
    (classify d t w st).err ≠ some TraceError.exited ∧
    (classify d t w st).effects.all Effect.quiet = true ∧
    (classify d t w st).tracer.handlers = t.handlers ∧
    (classify d t w st).tracer.pid = t.pid := by
  unfold classify
  split
  · simp
  · simp only [h, Bool.false_eq_true, if_false]
    split
    · have := signalStop_frame t w st
      exact ⟨this.1, this.2.1, this.2.2.1, this.2.2.2.1⟩
    · have := syscallStop_frame d t w
      exact ⟨this.1, this.2.1, this.2.2.1, this.2.2.2.1⟩

/-- An iteration whose wait reports an exit calls the process-exit handler (when there is one)
and returns `errExited`; any other iteration does not return `errExited`, does not call the
process-exit handler, and saw no exit. -/
theorem waitForSyscall_exit_cases (d : Decoder) (t : Tracer) (w : World) :
    (∃ st, st.Exited = true ∧
      waitForSyscall d t w =
        ⟨t, [Effect.ptraceSyscall t.pid t.lastSignal, Effect.wait4 t.pid (some st)] ++
          (if t.handlers.processExit then [Effect.processExit st.ExitStatus] else []),
          some TraceError.exited⟩) ∨
    ((waitForSyscall d t w).err ≠ some TraceError.exited ∧
      (∀ e ∈ (waitForSyscall d t w).effects, e.isProcessExit = false) ∧
      (∀ p st, Effect.wait4 p (some st) ∈ (waitForSyscall d t w).effects → st.Exited = false) ∧
      (waitForSyscall d t w).tracer.handlers = t.handlers ∧
      (waitForSyscall d t w).tracer.pid = t.pid) := by
  unfold waitForSyscall
  cases w.resume with
  | some errno => right; simp [Effect.isProcessExit]
  | none =>
    cases w.wait with
    | error errno => right; simp [Effect.isProcessExit]
    | ok st =>
      simp only [Step.after]
      cases hex : st.Exited with
      | true =>
        left
        exact ⟨st, hex, by rw [classify_exited d t w st hex]⟩
      | false =>
        right
        obtain ⟨h1, h2, h3, h4⟩ := classify_frame d t w st hex
        rw [List.all_eq_true] at h2
        refine ⟨h1, ?_, ?_, h3, h4⟩
        · intro e he
          simp only [List.mem_append, List.mem_cons, List.mem_singleton, List.not_mem_nil,
            or_false] at he
          rcases he with (rfl | rfl) | he
          · rfl
          · rfl
          · have := h2 e he
            simp only [Effect.quiet, Bool.and_eq_true, Bool.not_eq_true'] at this
            exact this.1
        · intro p st' he
          simp only [List.mem_append, List.mem_cons, List.mem_singleton, List.not_mem_nil,
            or_false] at he
          rcases he with (he | he) | he
          · cases he
          · cases he
            exact hex
          · have := h2 _ he
            simp [Effect.quiet, Effect.isWait4] at this

theorem filter_processExit_eq_nil (es : List Effect)
    (h : ∀ e ∈ es, e.isProcessExit = false) : es.filter Effect.isProcessExit = [] := by
  rw [List.filter_eq_nil_iff]
  intro e he
  simp [h e he]

/-- C4: in every run of `loop` in which some wait reports that the tracee exited, with exit code
`st.ExitStatus`, the run returns nil, the process-exit handler is called exactly once over the
whole run (not at all when none is registered) and with that exit code, and the wait is the last
kernel request of the run: nothing but the handler call comes behind it. -/
theorem loop_exit_fires_handler_once (d : Decoder) (ws : List World) (t : Tracer) (p : Int)
    (st : WaitStatus) (hwait : Effect.wait4 p (some st) ∈ (loop d t ws).effects)
    (hex : st.Exited = true) :
    (loop d t ws).outcome = Outcome.returned Option.none ∧
    (loop d t ws).effects.filter Effect.isProcessExit =
      (if t.handlers.processExit then [Effect.processExit st.ExitStatus] else []) ∧
    ∃ pre, (loop d t ws).effects =
      pre ++ Effect.wait4 t.pid (some st) ::
        (if t.handlers.processExit then [Effect.processExit st.ExitStatus] else []) := by
  induction ws generalizing t with
  | nil => simp [loop] at hwait
  | cons w ws ih =>
    rcases waitForSyscall_exit_cases d t w with ⟨st', _, hs⟩ | ⟨herr, hpe, hw, hh, hp⟩
    · have hl : loop d t (w :: ws) =
          ⟨t, [Effect.ptraceSyscall t.pid t.lastSignal, Effect.wait4 t.pid (some st')] ++
            (if t.handlers.processExit then [Effect.processExit st'.ExitStatus] else []),
            Outcome.returned Option.none⟩ := by
        simp [loop, hs]
      rw [hl] at hwait ⊢
      have hst : st' = st := by
        cases hreg : t.handlers.processExit <;> simp [hreg] at hwait <;> exact hwait.2.symm
      subst hst
      refine ⟨rfl, ?_, [Effect.ptraceSyscall t.pid t.lastSignal], rfl⟩
      cases hreg : t.handlers.processExit <;> simp [hreg, Effect.isProcessExit]
    · cases herr' : (waitForSyscall d t w).err with
      | some e =>
        have hne : e ≠ TraceError.exited := fun h => herr (by rw [herr', h])
        have hl : (loop d t (w :: ws)).effects = (waitForSyscall d t w).effects := by
          simp [loop, herr', hne]
        rw [hl] at hwait
        have := hw p st hwait
        rw [hex] at this
        cases this
      | none =>
        by_cases hr : (listen (waitForSyscall d t w).tracer w.sigBeforeLoopCheck).receivedSignal > 0
        · have hl : (loop d t (w :: ws)).effects = (waitForSyscall d t w).effects := by
            simp [loop, herr', hr]
          rw [hl] at hwait
          have := hw p st hwait
          rw [hex] at this
          cases this
        · have hl : loop d t (w :: ws) =
              (loop d (listen (waitForSyscall d t w).tracer w.sigBeforeLoopCheck) ws).after
                (waitForSyscall d t w).effects := by
            simp [loop, herr', hr]
          rw [hl] at hwait ⊢
          simp only [Run.after, List.mem_append] at hwait ⊢
          rcases hwait with hwait | hwait
          · have := hw p st hwait
            rw [hex] at this
            cases this
          · obtain ⟨h1, h2, pre, h3⟩ := ih _ hwait
            simp only [listen_handlers, listen_pid, hh, hp] at h2 h3
            refine ⟨h1, ?_, (waitForSyscall d t w).effects ++ pre, ?_⟩
            · rw [List.filter_append, filter_processExit_eq_nil _ hpe, h2]
              rfl
            · rw [h3, List.append_assoc]

/-- C4 at a concrete input: `open` is entered and left, then the tracee exits with code 3. -/
theorem loop_exit_fires_handler_once_witness :
    (loop plainDecoder { watched with handlers := { watched.handlers with processExit := true } }
        [openEnter, openExit, calmWorld (exitStatus 3) []]).outcome
      = Outcome.returned Option.none ∧
    (loop plainDecoder { watched with handlers := { watched.handlers with processExit := true } }
        [openEnter, openExit, calmWorld (exitStatus 3) []]).effects.filter Effect.isProcessExit =
      (if ({ watched with handlers := { watched.handlers with processExit := true } } :
          Tracer).handlers.processExit
        then [Effect.processExit (exitStatus 3).ExitStatus] else []) ∧
    ∃ pre,
      (loop plainDecoder { watched with handlers := { watched.handlers with processExit := true } }
        [openEnter, openExit, calmWorld (exitStatus 3) []]).effects =
      pre ++ Effect.wait4
          ({ watched with handlers := { watched.handlers with processExit := true } } : Tracer).pid
          (some (exitStatus 3)) ::
        (if ({ watched with handlers := { watched.handlers with processExit := true } } :
            Tracer).handlers.processExit
          then [Effect.processExit (exitStatus 3).ExitStatus] else []) :=
  loop_exit_fires_handler_once plainDecoder [openEnter, openExit, calmWorld (exitStatus 3) []]
    { watched with handlers := { watched.handlers with processExit := true } } 7 (exitStatus 3)
    (by decide) (by decide)

/-- C5, as amended: a stop whose trap cause is not -1 (a stop with plain SIGTRAP) ends the
iteration at once with nil: nothing is requested from the kernel after the wait, no handler is
called, and the session (`isExit`, `lastCall` and everything else) stays as it was. -/
theorem plain_trap_is_skipped (d : Decoder) (t : Tracer) (w : World) (st : WaitStatus)
    (hres : w.resume = Option.none) (hwait : w.wait = Except.ok st)
    (htrap : st.TrapCause ≠ -1) :
    waitForSyscall d t w =
      ⟨t, [Effect.ptraceSyscall t.pid t.lastSignal, Effect.wait4 t.pid (some st)],
        Option.none⟩ := by
  rw [waitForSyscall_waited d t w st hres hwait]
  unfold classify
  simp [htrap, Step.after]

/-- C5, as amended, at a concrete input: an `exec` event stop while `open` is under way. -/
theorem plain_trap_is_skipped_witness :
    waitForSyscall plainDecoder (waitForSyscall plainDecoder watched openEnter).tracer
        (calmWorld execTrapStatus [2, 99, 98]) =
      ⟨(waitForSyscall plainDecoder watched openEnter).tracer,
        [Effect.ptraceSyscall (waitForSyscall plainDecoder watched openEnter).tracer.pid
            (waitForSyscall plainDecoder watched openEnter).tracer.lastSignal,
          Effect.wait4 (waitForSyscall plainDecoder watched openEnter).tracer.pid
            (some execTrapStatus)],
        Option.none⟩ :=
  plain_trap_is_skipped plainDecoder (waitForSyscall plainDecoder watched openEnter).tracer
    (calmWorld execTrapStatus [2, 99, 98]) execTrapStatus rfl rfl (by decide)

/-- C5 fails as stated: for the plain SIGTRAP stop `0x057F` the trap cause is 0, not -1, and the
iteration of a fresh session with both syscall handlers registered reads no registers, calls no
handler and leaves `isExit` false and `lastCall` nil, while the same kernel answers with the stop
tagged `SIGTRAP|0x80` dispatch the enter event and flip `isExit`. -/
theorem plain_trap_not_treated_as_syscall :
    (stopStatus 5).TrapCause = 0 ∧
    waitForSyscall plainDecoder watched (calmWorld (stopStatus 5) [2, 10, 20]) =
      ⟨watched, [Effect.ptraceSyscall 7 0, Effect.wait4 7 (some 1407)], Option.none⟩ ∧
    watched.isExit = false ∧ watched.lastCall = Option.none ∧
    waitForSyscall plainDecoder watched (calmWorld (stopStatus 133) [2, 10, 20]) =
      ⟨{ watched with isExit := true, lastCall := some ⟨7, 2, [10, 20], [], []⟩ },
        [Effect.ptraceSyscall 7 0, Effect.wait4 7 (some 34175), Effect.ptraceGetRegs 7,
          Effect.populate ⟨7, 2, [10, 20], [], []⟩ false,
          Effect.syscallEnter ⟨7, 2, [10, 20], [], []⟩],
        Option.none⟩ := by
  decide

/-- Every iteration begins with the resume `PtraceSyscall(pid, lastSignal)`. -/
theorem waitForSyscall_effects_head (d : Decoder) (t : Tracer) (w : World) :
    ∃ rest, (waitForSyscall d t w).effects = Effect.ptraceSyscall t.pid t.lastSignal :: rest := by
  unfold waitForSyscall
  cases w.resume with
  | some errno => exact ⟨[], rfl⟩
  | none =>
    cases w.wait with
    | error errno => exact ⟨_, rfl⟩
    | ok st => exact ⟨_, rfl⟩

/-- Every run over at least one world begins with the resume `PtraceSyscall(pid, lastSignal)`. -/
theorem loop_effects_head (d : Decoder) (t : Tracer) (w : World) (ws : List World) :
    ∃ rest, (loop d t (w :: ws)).effects = Effect.ptraceSyscall t.pid t.lastSignal :: rest := by
  obtain ⟨rest, h⟩ := waitForSyscall_effects_head d t w
  simp only [loop]
  split
  · split <;> exact ⟨rest, h⟩
  · split
    · exact ⟨rest, h⟩
    · exact ⟨rest ++
        (loop d (listen (waitForSyscall d t w).tracer w.sigBeforeLoopCheck) ws).effects,
        by simp [Run.after, h]⟩

/-- A run that goes on after its first iteration continues with the effects of the run from the
session that iteration left. -/
theorem loop_continues (d : Decoder) (t : Tracer) (w : World) (ws : List World)
    (hok : (waitForSyscall d t w).err = Option.none)
    (hflag : ¬ (listen (waitForSyscall d t w).tracer w.sigBeforeLoopCheck).receivedSignal > 0) :
    loop d t (w :: ws) =
      (loop d (listen (waitForSyscall d t w).tracer w.sigBeforeLoopCheck) ws).after
        (waitForSyscall d t w).effects := by
  simp [loop, hok, hflag]

/-- A status that is no exit, no plain SIGTRAP stop and no syscall stop takes the signal path. -/
theorem classify_signal (d : Decoder) (t : Tracer) (w : World) (st : WaitStatus)
    (hplain : st.StopSignal ≠ SIGTRAP) (htag : st.StopSignal ≠ SIGTRAP_SYSGOOD)
    (hex : st.Exited = false) : classify d t w st = signalStop t w st := by
  unfold classify
  simp [trapCause_of_stopSignal st hplain, hex, htag]

/-- C6, as amended: for a stop with a job-control stop signal (SIGSTOP, SIGTSTP, SIGTTIN,
SIGTTOU), with no terminating signal recorded when line 189 reads the flag, and with the
signal-info query answered whenever a signal handler is registered, the iteration returns nil
with `lastSignal` set to that signal, issues no resume of its own, and when `loop` goes on its
next request is `PtraceSyscall(pid, s)` with exactly that signal, whatever was remembered
before. -/
theorem job_control_stop_is_forwarded (d : Decoder) (t : Tracer) (w w' : World)
    (ws : List World) (st : WaitStatus) (info : SigInfo)
    (hres : w.resume = Option.none) (hwait : w.wait = Except.ok st)
    (hjob : st.StopSignal = SIGSTOP ∨ st.StopSignal = SIGTSTP ∨ st.StopSignal = SIGTTIN ∨
      st.StopSignal = SIGTTOU)
    (hflag : (listen t w.sigBeforeJobCheck).receivedSignal = 0)
    (hinfo : t.handlers.signal = true → w.sigInfo = Except.ok info) :
    (waitForSyscall d t w).err = Option.none ∧
    (waitForSyscall d t w).tracer.lastSignal = st.StopSignal ∧
    (waitForSyscall d t w).effects =
      [Effect.ptraceSyscall t.pid t.lastSignal, Effect.wait4 t.pid (some st)] ++
        (if t.handlers.signal then [Effect.getSignalInfo t.pid, Effect.signal info] else []) ∧
    (¬ (listen (waitForSyscall d t w).tracer w.sigBeforeLoopCheck).receivedSignal > 0 →
      ∃ rest, (loop d t (w :: w' :: ws)).effects =
        (waitForSyscall d t w).effects ++ Effect.ptraceSyscall t.pid st.StopSignal :: rest) := by
  have hplain : st.StopSignal ≠ SIGTRAP := by
    rcases hjob with h | h | h | h <;> rw [h] <;> decide
  have htag : st.StopSignal ≠ SIGTRAP_SYSGOOD := by
    rcases hjob with h | h | h | h <;> rw [h] <;> decide
  have hex : st.Exited = false :=
    not_exited_of_stopSignal st _ rfl (by rcases hjob with h | h | h | h <;> rw [h] <;> decide)
  have hjc : jobControl t w st =
      ⟨{ listen t w.sigBeforeJobCheck with lastSignal := st.StopSignal }, [], Option.none⟩ := by
    unfold jobControl
    have : (st.StopSignal == SIGSTOP || st.StopSignal == SIGTSTP || st.StopSignal == SIGTTIN ||
        st.StopSignal == SIGTTOU) = true := by
      rcases hjob with h | h | h | h <;> simp [h]
    simp [this, hflag]
  have hstep : waitForSyscall d t w =
      ⟨{ listen t w.sigBeforeJobCheck with lastSignal := st.StopSignal },
        [Effect.ptraceSyscall t.pid t.lastSignal, Effect.wait4 t.pid (some st)] ++
          (if t.handlers.signal then [Effect.getSignalInfo t.pid, Effect.signal info] else []),
        Option.none⟩ := by
    rw [waitForSyscall_waited d t w st hres hwait, classify_signal d t w st hplain htag hex]
    unfold signalStop
    cases hreg : t.handlers.signal with
    | false => simp [hjc, Step.after]
    | true => simp [hinfo hreg, hjc, Step.after]
  refine ⟨by rw [hstep], by rw [hstep], by rw [hstep], fun hgo => ?_⟩
  rw [loop_continues d t w (w' :: ws) (by rw [hstep]) hgo]
  obtain ⟨rest, hrest⟩ := loop_effects_head d
    (listen (waitForSyscall d t w).tracer w.sigBeforeLoopCheck) w' ws
  refine ⟨rest, ?_⟩
  simp only [Run.after, hrest, listen_pid, listen_lastSignal]
  rw [hstep]
  simp

/-- C6, as amended, at a concrete input: SIGTSTP arrives while SIGSTOP is remembered. -/
theorem job_control_stop_is_forwarded_witness :
    (waitForSyscall plainDecoder { signalWatched with lastSignal := 19 }
      (calmWorld (stopStatus 20) [])).err = Option.none ∧
    (waitForSyscall plainDecoder { signalWatched with lastSignal := 19 }
      (calmWorld (stopStatus 20) [])).tracer.lastSignal = (stopStatus 20).StopSignal ∧
    (waitForSyscall plainDecoder { signalWatched with lastSignal := 19 }
      (calmWorld (stopStatus 20) [])).effects =
      [Effect.ptraceSyscall ({ signalWatched with lastSignal := 19 } : Tracer).pid
          ({ signalWatched with lastSignal := 19 } : Tracer).lastSignal,
        Effect.wait4 ({ signalWatched with lastSignal := 19 } : Tracer).pid
          (some (stopStatus 20))] ++
        (if ({ signalWatched with lastSignal := 19 } : Tracer).handlers.signal
          then [Effect.getSignalInfo ({ signalWatched with lastSignal := 19 } : Tracer).pid,
            Effect.signal ⟨0, 0⟩]
          else []) ∧
    (¬ (listen (waitForSyscall plainDecoder { signalWatched with lastSignal := 19 }
          (calmWorld (stopStatus 20) [])).tracer
        (calmWorld (stopStatus 20) []).sigBeforeLoopCheck).receivedSignal > 0 →
      ∃ rest, (loop plainDecoder { signalWatched with lastSignal := 19 }
          (calmWorld (stopStatus 20) [] :: openEnter :: [])).effects =
        (waitForSyscall plainDecoder { signalWatched with lastSignal := 19 }
          (calmWorld (stopStatus 20) [])).effects ++
          Effect.ptraceSyscall ({ signalWatched with lastSignal := 19 } : Tracer).pid
            (stopStatus 20).StopSignal :: rest) :=
  job_control_stop_is_forwarded plainDecoder { signalWatched with lastSignal := 19 }
    (calmWorld (stopStatus 20) []) openEnter [] (stopStatus 20) ⟨0, 0⟩ rfl rfl
    (Or.inr (Or.inl (by decide))) (by decide) (fun _ => rfl)

/-- C6 fails as stated: with a signal handler registered and no terminating signal recorded, a
SIGSTOP stop whose signal-info query fails (errno 3) makes the iteration return that error with
`lastSignal` still 0, and `loop` returns the error: no resume forwards SIGSTOP. -/
theorem job_control_stop_lost_on_query_failure :
    (stopStatus 19).StopSignal = SIGSTOP ∧ signalWatched.receivedSignal = 0 ∧
    waitForSyscall plainDecoder signalWatched
        { calmWorld (stopStatus 19) [] with sigInfo := Except.error 3 } =
      ⟨signalWatched,
        [Effect.ptraceSyscall 7 0, Effect.wait4 7 (some 4991), Effect.getSignalInfo 7],
        some (TraceError.signalInfo 3)⟩ ∧
    signalWatched.lastSignal = 0 ∧
    loop plainDecoder signalWatched
        [{ calmWorld (stopStatus 19) [] with sigInfo := Except.error 3 }, openEnter] =
      ⟨signalWatched,
        [Effect.ptraceSyscall 7 0, Effect.wait4 7 (some 4991), Effect.getSignalInfo 7],
        Outcome.returned (some (TraceError.signalInfo 3))⟩ := by
  decide

theorem waitForSyscall_pid (d : Decoder) (t : Tracer) (w : World) :
    (waitForSyscall d t w).tracer.pid = t.pid := by
  rcases waitForSyscall_exit_cases d t w with ⟨st, _, h⟩ | ⟨_, _, _, _, h⟩
  · rw [h]
  · exact h

theorem waitForSyscall_handlers (d : Decoder) (t : Tracer) (w : World) :
    (waitForSyscall d t w).tracer.handlers = t.handlers := by
  rcases waitForSyscall_exit_cases d t w with ⟨st, _, h⟩ | ⟨_, _, _, h, _⟩
  · rw [h]
  · exact h

/-- The effects of a run begin with the effects of its first iteration. -/
theorem loop_effects_begin (d : Decoder) (t : Tracer) (w : World) (ws : List World) :
    ∃ rest, (loop d t (w :: ws)).effects = (waitForSyscall d t w).effects ++ rest := by
  simp only [loop]
  split
  · split <;> exact ⟨[], by simp⟩
  · split
    · exact ⟨[], by simp⟩
    · exact ⟨(loop d (listen (waitForSyscall d t w).tracer w.sigBeforeLoopCheck) ws).effects,
        by simp [Run.after]⟩

/-- C7: after an iteration that returned nil, whatever stop it handled, `loop` reads the
terminating-signal flag: when it is set (`receivedSignal > 0`) `loop` returns nil with the effects
of that iteration as its last ones, so without another resume; when it is not set `loop` runs
another iteration from the session the iteration left, and that iteration (given kernel answers
for it) starts with the resume `PtraceSyscall(pid, lastSignal)`. -/
theorem loop_checks_flag_after_iteration (d : Decoder) (t : Tracer) (w : World)
    (ws : List World) (hok : (waitForSyscall d t w).err = Option.none) :
    ((listen (waitForSyscall d t w).tracer w.sigBeforeLoopCheck).receivedSignal > 0 →
      loop d t (w :: ws) =
        ⟨listen (waitForSyscall d t w).tracer w.sigBeforeLoopCheck,
          (waitForSyscall d t w).effects, Outcome.returned Option.none⟩) ∧
    (¬ (listen (waitForSyscall d t w).tracer w.sigBeforeLoopCheck).receivedSignal > 0 →
      loop d t (w :: ws) =
        (loop d (listen (waitForSyscall d t w).tracer w.sigBeforeLoopCheck) ws).after
          (waitForSyscall d t w).effects ∧
      ∀ w' ws', ws = w' :: ws' →
        (∃ rest, (loop d t (w :: ws)).effects =
          (waitForSyscall d t w).effects ++
            (waitForSyscall d (listen (waitForSyscall d t w).tracer w.sigBeforeLoopCheck)
              w').effects ++ rest) ∧
        ∃ rest, (loop d t (w :: ws)).effects =
          (waitForSyscall d t w).effects ++
            Effect.ptraceSyscall t.pid (waitForSyscall d t w).tracer.lastSignal :: rest) := by
  refine ⟨fun hset => by simp [loop, hok, hset], fun hgo => ?_⟩
  have hl := loop_continues d t w ws hok hgo
  refine ⟨hl, fun w' ws' hws => ?_⟩
  subst hws
  rw [hl]
  constructor
  · obtain ⟨rest, h⟩ := loop_effects_begin d
      (listen (waitForSyscall d t w).tracer w.sigBeforeLoopCheck) w' ws'
    exact ⟨rest, by simp [Run.after, h]⟩
  · obtain ⟨rest, h⟩ := loop_effects_head d
      (listen (waitForSyscall d t w).tracer w.sigBeforeLoopCheck) w' ws'
    exact ⟨rest, by simp [Run.after, h, waitForSyscall_pid]⟩

/-- C7 at a concrete input: SIGINT is recorded while `open` is entered; two more kernel answers
are at hand and stay unused. -/
theorem loop_checks_flag_after_iteration_witness :
    loop plainDecoder watched (interruptedWorld (stopStatus 133) [2, 10, 20] ::
        [openExit, openEnter]) =
      ⟨{ watched with
          isExit := true
          lastCall := some ⟨7, 2, [10, 20], [], []⟩
          receivedSignal := 2 },
        [Effect.ptraceSyscall 7 0, Effect.wait4 7 (some 34175), Effect.ptraceGetRegs 7,
          Effect.populate ⟨7, 2, [10, 20], [], []⟩ false,
          Effect.syscallEnter ⟨7, 2, [10, 20], [], []⟩],
        Outcome.returned Option.none⟩ :=
  (loop_checks_flag_after_iteration plainDecoder watched
    (interruptedWorld (stopStatus 133) [2, 10, 20]) [openExit, openEnter] (by decide)).1
    (by decide)

/-- C8, as amended: on a syscall stop that returns nil the phase alone selects the handler, and
each handler is called only when registered. In exit phase the effects behind `populate` are the
call of the exit handler (nothing when none is registered): no enter handler, no pause. In enter
phase with an enter handler they are the call of the enter handler, with a 50 ms pause in front
exactly when the event's number is `SYS_READ`; in enter phase without an enter handler there is
neither a call nor a pause, also for `read`. In the scenario of a tracee calling `open` and then
`read`, with both handlers registered, the handler calls and pauses of the run are enter(open),
exit(open), pause 50 ms, enter(read), exit(read). -/
theorem dispatch_by_phase (d : Decoder) (t : Tracer) (w : World) (st : WaitStatus)
    (hres : w.resume = Option.none) (hwait : w.wait = Except.ok st)
    (htag : st.StopSignal = SIGTRAP_SYSGOOD)
    (hok : (waitForSyscall d t w).err = Option.none) :
    (∃ handed call, d.populate handed t.isExit = Except.ok call ∧
      (waitForSyscall d t w).tracer.lastCall = some call ∧
      (waitForSyscall d t w).effects =
        [Effect.ptraceSyscall t.pid t.lastSignal, Effect.wait4 t.pid (some st),
          Effect.ptraceGetRegs t.pid, Effect.populate handed t.isExit] ++
        (if t.isExit then
          (if t.handlers.syscallExit then [Effect.syscallExit call] else [])
        else if t.handlers.syscallEnter then
          (if call.number = d.sysRead then [Effect.sleep 50, Effect.syscallEnter call]
            else [Effect.syscallEnter call])
        else [])) ∧
    (loop plainDecoder watched
        [syscallWorld [2, 10, 20], syscallWorld [2, 99, 98], syscallWorld [0, 3, 4096],
          syscallWorld [0, 17, 4096]]).effects.filter Effect.isDispatchOrPause =
      [Effect.syscallEnter ⟨7, 2, [10, 20], [], []⟩, Effect.syscallExit ⟨7, 2, [10, 20], [], []⟩,
        Effect.sleep 50, Effect.syscallEnter ⟨7, 0, [3, 4096], [], []⟩,
        Effect.syscallExit ⟨7, 0, [3, 4096], [], []⟩] := by
  refine ⟨?_, by decide⟩
  rw [waitForSyscall_waited d t w st hres hwait, classify_sysgood d t w st htag] at hok ⊢
  simp only [Step.after] at hok ⊢
  rcases syscallStop_cases d t w with ⟨he, _⟩ | ⟨_, handed, call, hq, ht, hes⟩
  · exact absurd hok he
  · refine ⟨handed, call, hq, by rw [ht], ?_⟩
    rw [hes]
    unfold dispatch
    cases t.isExit <;> cases t.handlers.syscallEnter <;> cases t.handlers.syscallExit <;>
      by_cases hn : call.number = d.sysRead <;> simp [hn]

/-- C8, as amended, at a concrete input: `read` is entered by a session with both handlers. -/
theorem dispatch_by_phase_witness :
    ∃ handed call, plainDecoder.populate handed watched.isExit = Except.ok call ∧
      (waitForSyscall plainDecoder watched (syscallWorld [0, 3, 4096])).tracer.lastCall
        = some call ∧
      (waitForSyscall plainDecoder watched (syscallWorld [0, 3, 4096])).effects =
        [Effect.ptraceSyscall watched.pid watched.lastSignal,
          Effect.wait4 watched.pid (some (stopStatus 133)),
          Effect.ptraceGetRegs watched.pid, Effect.populate handed watched.isExit] ++
        (if watched.isExit then
          (if watched.handlers.syscallExit then [Effect.syscallExit call] else [])
        else if watched.handlers.syscallEnter then
          (if call.number = plainDecoder.sysRead then [Effect.sleep 50, Effect.syscallEnter call]
            else [Effect.syscallEnter call])
        else []) :=
  (dispatch_by_phase plainDecoder watched (syscallWorld [0, 3, 4096]) (stopStatus 133) rfl rfl
    (by decide) (by decide)).1

/-- C8 fails as stated: a session without handlers that enters `read` (number 0, the `SYS_READ`
of `plainDecoder`) returns nil and flips the phase, but no enter handler receives the event and
there is no pause: the effects end with the call of `populate`. -/
theorem read_without_enter_handler_not_paused :
    plainDecoder.sysRead = 0 ∧ (New 7).isExit = false ∧
    waitForSyscall plainDecoder (New 7) (syscallWorld [0, 3, 4096]) =
      ⟨{ New 7 with isExit := true, lastCall := some ⟨7, 0, [3, 4096], [], []⟩ },
        [Effect.ptraceSyscall 7 0, Effect.wait4 7 (some 34175), Effect.ptraceGetRegs 7,
          Effect.populate ⟨7, 0, [3, 4096], [], []⟩ false],
        Option.none⟩ := by
  decide

/-- C9: on a syscall stop whose decoded number is -1, in either phase and with or without a
recorded event, `waitForSyscall` returns the error of line 216 (not the pairing error), with the
session untouched and no effect behind the register read (no `populate`, no handler), and `loop`
returns that error at once. -/
theorem unknown_syscall_aborts_loop (d : Decoder) (t : Tracer) (w : World) (ws : List World)
    (st : WaitStatus) (regs : PtraceRegs)
    (hres : w.resume = Option.none) (hwait : w.wait = Except.ok st)
    (htag : st.StopSignal = SIGTRAP_SYSGOOD) (hregs : w.regs = Except.ok regs)
    (hnum : (d.parseSyscall regs).number = -1) :
    waitForSyscall d t w =
      ⟨t, [Effect.ptraceSyscall t.pid t.lastSignal, Effect.wait4 t.pid (some st),
        Effect.ptraceGetRegs t.pid], some TraceError.unknownSyscall⟩ ∧
    loop d t (w :: ws) =
      ⟨t, [Effect.ptraceSyscall t.pid t.lastSignal, Effect.wait4 t.pid (some st),
        Effect.ptraceGetRegs t.pid], Outcome.returned (some TraceError.unknownSyscall)⟩ := by
  have hstep : waitForSyscall d t w =
      ⟨t, [Effect.ptraceSyscall t.pid t.lastSignal, Effect.wait4 t.pid (some st),
        Effect.ptraceGetRegs t.pid], some TraceError.unknownSyscall⟩ := by
    rw [waitForSyscall_waited d t w st hres hwait, classify_sysgood d t w st htag]
    unfold syscallStop
    simp [hregs, hnum, Step.after]
  refine ⟨hstep, ?_⟩
  simp [loop, hstep]

/-- C9 at a concrete input: in exit phase after `open` (number 2) was entered, the registers
decode to -1 (`0xFFFFFFFFFFFFFFFF`), which also differs from the recorded number. -/
theorem unknown_syscall_aborts_loop_witness :
    waitForSyscall plainDecoder
        { watched with isExit := true, lastCall := some ⟨7, 2, [10, 20], [], []⟩ }
        (syscallWorld [18446744073709551615, 1]) =
      ⟨{ watched with isExit := true, lastCall := some ⟨7, 2, [10, 20], [], []⟩ },
        [Effect.ptraceSyscall 7 0, Effect.wait4 7 (some (stopStatus 133)),
          Effect.ptraceGetRegs 7],
        some TraceError.unknownSyscall⟩ ∧
    loop plainDecoder
        { watched with isExit := true, lastCall := some ⟨7, 2, [10, 20], [], []⟩ }
        (syscallWorld [18446744073709551615, 1] :: [openExit]) =
      ⟨{ watched with isExit := true, lastCall := some ⟨7, 2, [10, 20], [], []⟩ },
        [Effect.ptraceSyscall 7 0, Effect.wait4 7 (some (stopStatus 133)),
          Effect.ptraceGetRegs 7],
        Outcome.returned (some TraceError.unknownSyscall)⟩ :=
  unknown_syscall_aborts_loop plainDecoder
    { watched with isExit := true, lastCall := some ⟨7, 2, [10, 20], [], []⟩ }
    (syscallWorld [18446744073709551615, 1]) [openExit] (stopStatus 133)
    [18446744073709551615, 1] rfl rfl (by decide) rfl (by decide)

/-- The job-control part queries nothing and returns no signal-info error. -/
theorem jobControl_no_query (t : Tracer) (w : World) (st : WaitStatus) :
    (jobControl t w st).effects.all (fun e => !e.isGetSignalInfo) = true ∧
    ∀ code, (jobControl t w st).err ≠ some (TraceError.signalInfo code) := by
  unfold jobControl
  simp only
  split
  · split <;> simp
  · split
    · split
      · simp
      · cases w.innerResume with
        | none => simp [Effect.isGetSignalInfo]
        | some errno =>
          simp only
          split <;> simp [Effect.isGetSignalInfo]
    · simp

/-- C10, as amended: for a status that takes the signal path (no exit, no plain SIGTRAP stop, no
syscall-trap tag) the kernel is queried for the signal details exactly when a signal handler is
registered. With a handler the query is the first request after the wait, and when it fails the
iteration returns that error with the session untouched and `loop` returns it at once. Without a
handler no query is made and the iteration returns no signal-info error. -/
theorem signal_info_queried_for_handler (d : Decoder) (t : Tracer) (w : World)
    (ws : List World) (st : WaitStatus)
    (hres : w.resume = Option.none) (hwait : w.wait = Except.ok st)
    (hplain : st.StopSignal ≠ SIGTRAP) (htag : st.StopSignal ≠ SIGTRAP_SYSGOOD)
    (hex : st.Exited = false) :
    (t.handlers.signal = true →
      (∃ rest, (waitForSyscall d t w).effects =
        [Effect.ptraceSyscall t.pid t.lastSignal, Effect.wait4 t.pid (some st),
          Effect.getSignalInfo t.pid] ++ rest) ∧
      ∀ code, w.sigInfo = Except.error code →
        waitForSyscall d t w =
          ⟨t, [Effect.ptraceSyscall t.pid t.lastSignal, Effect.wait4 t.pid (some st),
            Effect.getSignalInfo t.pid], some (TraceError.signalInfo code)⟩ ∧
        loop d t (w :: ws) =
          ⟨t, [Effect.ptraceSyscall t.pid t.lastSignal, Effect.wait4 t.pid (some st),
            Effect.getSignalInfo t.pid], Outcome.returned (some (TraceError.signalInfo code))⟩) ∧
    (t.handlers.signal = false →
      (∀ e ∈ (waitForSyscall d t w).effects, e.isGetSignalInfo = false) ∧
      ∀ code, (waitForSyscall d t w).err ≠ some (TraceError.signalInfo code)) := by
  rw [waitForSyscall_waited d t w st hres hwait, classify_signal d t w st hplain htag hex]
  constructor
  · intro hreg
    constructor
    · unfold signalStop
      cases w.sigInfo with
      | error code => exact ⟨[], by simp [hreg, Step.after]⟩
      | ok info => exact ⟨Effect.signal info :: (jobControl t w st).effects,
          by simp [hreg, Step.after]⟩
    · intro code hcode
      have hstep : waitForSyscall d t w =
          ⟨t, [Effect.ptraceSyscall t.pid t.lastSignal, Effect.wait4 t.pid (some st),
            Effect.getSignalInfo t.pid], some (TraceError.signalInfo code)⟩ := by
        rw [waitForSyscall_waited d t w st hres hwait, classify_signal d t w st hplain htag hex]
        unfold signalStop
        simp [hreg, hcode, Step.after]
      refine ⟨?_, by simp [loop, hstep]⟩
      rw [← hstep, waitForSyscall_waited d t w st hres hwait,
        classify_signal d t w st hplain htag hex]
  · intro hreg
    obtain ⟨h1, h2⟩ := jobControl_no_query t w st
    rw [List.all_eq_true] at h1
    have hs : signalStop t w st = jobControl t w st := by
      unfold signalStop
      simp [hreg]
    rw [hs]
    refine ⟨fun e he => ?_, h2⟩
    simp only [Step.after, List.mem_append, List.mem_cons, List.mem_singleton, List.not_mem_nil,
      or_false] at he
    rcases he with (rfl | rfl) | he
    · rfl
    · rfl
    · simpa using h1 e he

/-- C10, as amended, at a concrete input: a SIGINT stop of a session with a signal handler, the
signal-info query failing with errno 3. -/
theorem signal_info_queried_for_handler_witness :
    waitForSyscall plainDecoder signalWatched
        { calmWorld (stopStatus 2) [] with sigInfo := Except.error 3 } =
      ⟨signalWatched,
        [Effect.ptraceSyscall signalWatched.pid signalWatched.lastSignal,
          Effect.wait4 signalWatched.pid (some (stopStatus 2)),
          Effect.getSignalInfo signalWatched.pid],
        some (TraceError.signalInfo 3)⟩ ∧
    loop plainDecoder signalWatched
        ({ calmWorld (stopStatus 2) [] with sigInfo := Except.error 3 } :: [openEnter]) =
      ⟨signalWatched,
        [Effect.ptraceSyscall signalWatched.pid signalWatched.lastSignal,
          Effect.wait4 signalWatched.pid (some (stopStatus 2)),
          Effect.getSignalInfo signalWatched.pid],
        Outcome.returned (some (TraceError.signalInfo 3))⟩ :=
  ((signal_info_queried_for_handler plainDecoder signalWatched
    { calmWorld (stopStatus 2) [] with sigInfo := Except.error 3 } [openEnter] (stopStatus 2)
    rfl rfl (by decide) (by decide) (by decide)).1 rfl).2 3 rfl

/-- C10 fails as stated: a SIGINT stop lacks the syscall-trap tag, but a session without a signal
handler makes no signal-info query and returns nil although the query would fail, and `loop`
goes on to the next resume; and a plain SIGTRAP stop, which lacks the tag as well, is not queried
for even with a signal handler registered. -/
theorem signal_info_not_queried_without_handler :
    (stopStatus 2).StopSignal ≠ SIGTRAP_SYSGOOD ∧
    waitForSyscall plainDecoder (New 7)
        { calmWorld (stopStatus 2) [] with sigInfo := Except.error 3 } =
      ⟨New 7, [Effect.ptraceSyscall 7 0, Effect.wait4 7 (some 639)], Option.none⟩ ∧
    loop plainDecoder (New 7)
        [{ calmWorld (stopStatus 2) [] with sigInfo := Except.error 3 },
          { calmWorld (stopStatus 2) [] with resume := some 3 }] =
      ⟨New 7, [Effect.ptraceSyscall 7 0, Effect.wait4 7 (some 639), Effect.ptraceSyscall 7 0],
        Outcome.returned (some (TraceError.intercept 3))⟩ ∧
    (stopStatus 5).StopSignal ≠ SIGTRAP_SYSGOOD ∧
    waitForSyscall plainDecoder signalWatched
        { calmWorld (stopStatus 5) [] with sigInfo := Except.error 3 } =
      ⟨signalWatched, [Effect.ptraceSyscall 7 0, Effect.wait4 7 (some 1407)], Option.none⟩ := by
  decide

/-! ## One iteration on a signal stop -/

/-- The effects of the signal-info query and the signal handler call on the signal path: none
without a signal handler. -/
theorem signalStop_with_info (t : Tracer) (w : World) (st : WaitStatus) (info : SigInfo)
    (hinfo : t.handlers.signal = true → w.sigInfo = Except.ok info) :
    signalStop t w st = (jobControl t w st).after
      (if t.handlers.signal then [Effect.getSignalInfo t.pid, Effect.signal info] else []) := by
  unfold signalStop
  cases hreg : t.handlers.signal with
  | false => simp [Step.after]
  | true => simp [hinfo hreg]

/-- C11, as amended: for a status on the signal path (no exit, no plain SIGTRAP stop, no
syscall-trap tag) whose signal is neither a job-control stop signal nor SIGCONT, and with the
signal-info query answered whenever a signal handler is registered: while a job-control signal is
remembered the iteration issues exactly one inner resume `PtraceSyscall(pid, lastSignal)`, calls no
syscall handler, leaves the session as it was, and returns nil when that resume succeeds or fails
with ESRCH and the errno of the resume otherwise; when no signal is remembered it issues no inner
resume and returns nil. -/
theorem other_signal_resumes_with_remembered (d : Decoder) (t : Tracer) (w : World)
    (st : WaitStatus) (info : SigInfo)
    (hres : w.resume = Option.none) (hwait : w.wait = Except.ok st)
    (hex : st.Exited = false) (hplain : st.StopSignal ≠ SIGTRAP)
    (htag : st.StopSignal ≠ SIGTRAP_SYSGOOD)
    (hjob : st.StopSignal ≠ SIGSTOP ∧ st.StopSignal ≠ SIGTSTP ∧ st.StopSignal ≠ SIGTTIN ∧
      st.StopSignal ≠ SIGTTOU)
    (hcont : st.StopSignal ≠ SIGCONT)
    (hinfo : t.handlers.signal = true → w.sigInfo = Except.ok info) :
    (t.lastSignal ≠ 0 →
      waitForSyscall d t w =
        ⟨t, [Effect.ptraceSyscall t.pid t.lastSignal, Effect.wait4 t.pid (some st)] ++
            (if t.handlers.signal then [Effect.getSignalInfo t.pid, Effect.signal info] else [])
            ++ [Effect.ptraceSyscall t.pid t.lastSignal],
          match w.innerResume with
          | Option.none => Option.none
          | some errno => if errno = ESRCH then Option.none else some (TraceError.errno errno)⟩) ∧
    (t.lastSignal = 0 →
      waitForSyscall d t w =
        ⟨t, [Effect.ptraceSyscall t.pid t.lastSignal, Effect.wait4 t.pid (some st)] ++
            (if t.handlers.signal then [Effect.getSignalInfo t.pid, Effect.signal info] else []),
          Option.none⟩) := by
  rw [waitForSyscall_waited d t w st hres hwait, classify_signal d t w st hplain htag hex,
    signalStop_with_info t w st info hinfo]
  have hnj : (st.StopSignal == SIGSTOP || st.StopSignal == SIGTSTP || st.StopSignal == SIGTTIN ||
      st.StopSignal == SIGTTOU) = false := by
    simp [hjob.1, hjob.2.1, hjob.2.2.1, hjob.2.2.2]
  constructor
  · intro hlast
    unfold jobControl
    simp only [hnj, Bool.false_eq_true, if_false]
    cases hin : w.innerResume with
    | none => simp [hlast, hcont, Step.after]
    | some errno =>
      by_cases he : errno = ESRCH
      · simp [hlast, hcont, Step.after, he]
      · simp [hlast, hcont, Step.after, he]
  · intro hlast
    unfold jobControl
    simp [hnj, hlast, Step.after]

/-- C11, as amended, at a concrete input: SIGINT stops the tracee while SIGSTOP is remembered, and
the inner resume fails with ESRCH. -/
theorem other_signal_resumes_with_remembered_witness :
    waitForSyscall plainDecoder { signalWatched with lastSignal := 19 }
        { calmWorld (stopStatus 2) [] with innerResume := some 3 } =
      ⟨{ signalWatched with lastSignal := 19 },
        [Effect.ptraceSyscall 7 19, Effect.wait4 7 (some (stopStatus 2))] ++
          (if ({ signalWatched with lastSignal := 19 } : Tracer).handlers.signal
            then [Effect.getSignalInfo 7, Effect.signal ⟨0, 0⟩] else []) ++
          [Effect.ptraceSyscall 7 19],
        match ({ calmWorld (stopStatus 2) [] with innerResume := some 3 } : World).innerResume
          with
        | Option.none => Option.none
        | some errno => if errno = ESRCH then Option.none else some (TraceError.errno errno)⟩ :=
  (other_signal_resumes_with_remembered plainDecoder { signalWatched with lastSignal := 19 }
    { calmWorld (stopStatus 2) [] with innerResume := some 3 } (stopStatus 2) ⟨0, 0⟩ rfl rfl
    (by decide) (by decide) (by decide) (by decide) (by decide) (fun _ => rfl)).1 (by decide)

/-- C11 fails as stated: with SIGSTOP remembered, a plain SIGTRAP stop (neither a job-control stop
signal nor SIGCONT, and without the syscall-trap tag) returns nil without any inner resume; and a
SIGINT stop of a session with a signal handler whose signal-info query fails returns that error,
again without an inner resume. -/
theorem other_signal_without_inner_resume :
    (stopStatus 5).StopSignal = SIGTRAP ∧
    waitForSyscall plainDecoder { New 7 with lastSignal := 19 } (calmWorld (stopStatus 5) []) =
      ⟨{ New 7 with lastSignal := 19 },
        [Effect.ptraceSyscall 7 19, Effect.wait4 7 (some 1407)], Option.none⟩ ∧
    (stopStatus 2).StopSignal = SIGINT ∧
    waitForSyscall plainDecoder { signalWatched with lastSignal := 19 }
        { calmWorld (stopStatus 2) [] with sigInfo := Except.error 3 } =
      ⟨{ signalWatched with lastSignal := 19 },
        [Effect.ptraceSyscall 7 19, Effect.wait4 7 (some 639), Effect.getSignalInfo 7],
        some (TraceError.signalInfo 3)⟩ := by
  decide

/-! ## The remembered job-control signal -/

/-- How the job-control part changes `lastSignal`: not at all, or to the job-control stop signal
of the stop, or to 0 on a SIGCONT stop while a signal is remembered. -/
theorem jobControl_lastSignal (t : Tracer) (w : World) (st : WaitStatus) :
    ((jobControl t w st).tracer.lastSignal = t.lastSignal ∨
      (isJobControl st.StopSignal = true ∧
        (jobControl t w st).tracer.lastSignal = st.StopSignal) ∨
      (st.StopSignal = SIGCONT ∧ t.lastSignal ≠ 0 ∧ (jobControl t w st).tracer.lastSignal = 0 ∧
        (jobControl t w st).err = Option.none)) ∧
    (jobControl t w st).effects.all (Effect.resumesWith t.pid t.lastSignal) = true := by
  unfold jobControl
  simp only
  split
  · rename_i hj
    split
    · simp
    · refine ⟨Or.inr (Or.inl ⟨?_, rfl⟩), by simp⟩
      simpa [isJobControl] using hj
  · split
    · rename_i hl
      split
      · rename_i hc
        refine ⟨Or.inr (Or.inr ⟨by simpa using hc, by simpa using hl, rfl, rfl⟩), by simp⟩
      · cases w.innerResume with
        | none => simp [Effect.resumesWith]
        | some errno =>
          simp only
          split <;> simp [Effect.resumesWith]
    · simp

theorem dispatch_onSyscallPath (d : Decoder) (t : Tracer) (call : Syscall) :
    (dispatch d t call).all Effect.onSyscallPath = true := by
  unfold dispatch
  split
  · split <;> simp [Effect.onSyscallPath]
  · split
    · split <;> simp [Effect.onSyscallPath]
    · simp

/-- The syscall path reads the registers, calls `populate` and the syscall handlers, and pauses;
it has no other effect. -/
theorem syscallStop_onSyscallPath (d : Decoder) (t : Tracer) (w : World) :
    (syscallStop d t w).effects.all Effect.onSyscallPath = true := by
  unfold syscallStop
  cases w.regs with
  | error errno => simp [Effect.onSyscallPath]
  | ok regs =>
    simp only
    split
    · simp [Effect.onSyscallPath]
    · cases pairWithLast t { d.parseSyscall regs with pid := t.pid } with
      | error e => simp [Effect.onSyscallPath]
      | ok handed =>
        simp only
        cases d.populate handed t.isExit with
        | error code => simp [Effect.onSyscallPath]
        | ok call =>
          simp only
          rw [List.all_append, dispatch_onSyscallPath d t call]
          rfl

/-- How one iteration changes `lastSignal`, and with what it resumes. -/
theorem waitForSyscall_lastSignal (d : Decoder) (t : Tracer) (w : World) :
    ((waitForSyscall d t w).tracer.lastSignal = t.lastSignal ∨
      (∃ st, w.wait = Except.ok st ∧ isJobControl st.StopSignal = true ∧
        (waitForSyscall d t w).tracer.lastSignal = st.StopSignal) ∨
      (∃ st, w.wait = Except.ok st ∧ st.StopSignal = SIGCONT ∧ t.lastSignal ≠ 0 ∧
        (waitForSyscall d t w).tracer.lastSignal = 0 ∧
        (waitForSyscall d t w).err = Option.none)) ∧
    (waitForSyscall d t w).effects.all (Effect.resumesWith t.pid t.lastSignal) = true := by
  unfold waitForSyscall
  cases w.resume with
  | some errno => simp [Effect.resumesWith]
  | none =>
    cases hw : w.wait with
    | error errno => simp [Effect.resumesWith]
    | ok st =>
      simp only [Step.after, List.all_append]
      have hhead : [Effect.ptraceSyscall t.pid t.lastSignal, Effect.wait4 t.pid (some st)].all
          (Effect.resumesWith t.pid t.lastSignal) = true := by
        simp [Effect.resumesWith]
      rw [hhead, Bool.true_and]
      unfold classify
      split
      · simp
      · split
        · refine ⟨Or.inl rfl, ?_⟩
          simp only
          split <;> simp [Effect.resumesWith]
        · split
          · obtain ⟨h1, h2⟩ := jobControl_lastSignal t w st
            unfold signalStop
            split
            · cases w.sigInfo with
              | error code => simp [Effect.resumesWith]
              | ok info =>
                simp only [Step.after, List.all_append]
                refine ⟨?_, ?_⟩
                · rcases h1 with h | ⟨hj, h⟩ | ⟨hc, hl, h, he⟩
                  · exact Or.inl h
                  · exact Or.inr (Or.inl ⟨st, rfl, hj, h⟩)
                  · exact Or.inr (Or.inr ⟨st, rfl, hc, hl, h, he⟩)
                · rw [h2]
                  simp [Effect.resumesWith]
            · refine ⟨?_, h2⟩
              rcases h1 with h | ⟨hj, h⟩ | ⟨hc, hl, h, he⟩
              · exact Or.inl h
              · exact Or.inr (Or.inl ⟨st, rfl, hj, h⟩)
              · exact Or.inr (Or.inr ⟨st, rfl, hc, hl, h, he⟩)
          · obtain ⟨_, _, _, _, h5, _⟩ := syscallStop_frame d t w
            have h2 := syscallStop_onSyscallPath d t w
            refine ⟨Or.inl h5, ?_⟩
            rw [List.all_eq_true] at h2 ⊢
            intro e he
            have hq := h2 e he
            cases e <;> simp_all [Effect.resumesWith, Effect.onSyscallPath]

/-- Over a run without job-control stops and without SIGCONT stops the remembered signal stays,
and every resume of the run, outer or inner, forwards it. -/
theorem loop_resumes_with_remembered (d : Decoder) (ws : List World) (t : Tracer)
    (hquiet : ∀ w ∈ ws, ∀ st, w.wait = Except.ok st →
      isJobControl st.StopSignal = false ∧ st.StopSignal ≠ SIGCONT) :
    (loop d t ws).effects.all (Effect.resumesWith t.pid t.lastSignal) = true ∧
    (loop d t ws).tracer.lastSignal = t.lastSignal := by
  induction ws generalizing t with
  | nil => simp [loop]
  | cons w ws ih =>
    obtain ⟨hcases, hall⟩ := waitForSyscall_lastSignal d t w
    have hkeep : (waitForSyscall d t w).tracer.lastSignal = t.lastSignal := by
      rcases hcases with h | ⟨st, hw, hj, _⟩ | ⟨st, hw, hc, _⟩
      · exact h
      · have := (hquiet w (List.mem_cons_self _ _) st hw).1
        rw [hj] at this
        cases this
      · exact absurd hc (hquiet w (List.mem_cons_self _ _) st hw).2
    simp only [loop]
    split
    · split <;> exact ⟨hall, hkeep⟩
    · split
      · exact ⟨hall, by simpa using hkeep⟩
      · have := ih (listen (waitForSyscall d t w).tracer w.sigBeforeLoopCheck)
          (fun w' hw' => hquiet w' (List.mem_cons_of_mem _ hw'))
        simp only [listen_pid, listen_lastSignal, waitForSyscall_pid, hkeep] at this
        refine ⟨?_, this.2⟩
        simp only [Run.after, List.all_append, hall, this.1, Bool.and_self]

/-- C16, as amended: a SIGCONT stop while a job-control signal is remembered, with the signal-info
query answered whenever a signal handler is registered, sets `lastSignal` to 0 and returns nil
without an inner resume. No other iteration clears it: after any iteration, whatever it returns,
`lastSignal` is what it was, or the job-control stop signal of the stop just seen, or 0 after such
a SIGCONT stop that returned nil. So in a run without SIGCONT stops and without job-control stops
every resume, also one that follows a syscall stop, is `PtraceSyscall(pid, lastSignal)` with the
signal remembered at the start of the run. -/
theorem sigcont_alone_clears_lastSignal (d : Decoder) (t : Tracer) (w : World) (st : WaitStatus)
    (info : SigInfo) (hres : w.resume = Option.none) (hwait : w.wait = Except.ok st)
    (hcont : st.StopSignal = SIGCONT) (hlast : t.lastSignal ≠ 0)
    (hinfo : t.handlers.signal = true → w.sigInfo = Except.ok info) :
    waitForSyscall d t w =
      ⟨{ t with lastSignal := 0 },
        [Effect.ptraceSyscall t.pid t.lastSignal, Effect.wait4 t.pid (some st)] ++
          (if t.handlers.signal then [Effect.getSignalInfo t.pid, Effect.signal info] else []),
        Option.none⟩ ∧
    (∀ (t1 : Tracer) (w1 : World),
      (waitForSyscall d t1 w1).tracer.lastSignal = t1.lastSignal ∨
      (∃ st1, w1.wait = Except.ok st1 ∧ isJobControl st1.StopSignal = true ∧
        (waitForSyscall d t1 w1).tracer.lastSignal = st1.StopSignal) ∨
      (∃ st1, w1.wait = Except.ok st1 ∧ st1.StopSignal = SIGCONT ∧ t1.lastSignal ≠ 0 ∧
        (waitForSyscall d t1 w1).tracer.lastSignal = 0 ∧
        (waitForSyscall d t1 w1).err = Option.none)) ∧
    (∀ (t1 : Tracer) (ws : List World),
      (∀ w1 ∈ ws, ∀ st1, w1.wait = Except.ok st1 →
        isJobControl st1.StopSignal = false ∧ st1.StopSignal ≠ SIGCONT) →
      ∀ p s, Effect.ptraceSyscall p s ∈ (loop d t1 ws).effects →
        p = t1.pid ∧ s = t1.lastSignal) := by
  refine ⟨?_, fun t1 w1 => (waitForSyscall_lastSignal d t1 w1).1, fun t1 ws hq p s hmem => ?_⟩
  · have hplain : st.StopSignal ≠ SIGTRAP := by rw [hcont]; decide
    have htag : st.StopSignal ≠ SIGTRAP_SYSGOOD := by rw [hcont]; decide
    have hex : st.Exited = false := not_exited_of_stopSignal st _ hcont (by decide)
    rw [waitForSyscall_waited d t w st hres hwait, classify_signal d t w st hplain htag hex,
      signalStop_with_info t w st info hinfo]
    unfold jobControl
    have hnj : (st.StopSignal == SIGSTOP || st.StopSignal == SIGTSTP ||
        st.StopSignal == SIGTTIN || st.StopSignal == SIGTTOU) = false := by
      rw [hcont]; decide
    simp only [hnj, Bool.false_eq_true, if_false]
    simp [hlast, hcont, Step.after]
  · have h := (loop_resumes_with_remembered d ws t1 hq).1
    rw [List.all_eq_true] at h
    simpa [Effect.resumesWith] using h _ hmem

/-- C16, as amended, at a concrete input: SIGCONT stops the tracee while SIGTSTP is
remembered. -/
theorem sigcont_alone_clears_lastSignal_witness :
    waitForSyscall plainDecoder { signalWatched with lastSignal := 20 }
        (calmWorld (stopStatus 18) []) =
      ⟨{ signalWatched with lastSignal := 0 },
        [Effect.ptraceSyscall 7 20, Effect.wait4 7 (some (stopStatus 18))] ++
          (if ({ signalWatched with lastSignal := 20 } : Tracer).handlers.signal
            then [Effect.getSignalInfo 7, Effect.signal ⟨0, 0⟩] else []),
        Option.none⟩ :=
  (sigcont_alone_clears_lastSignal plainDecoder { signalWatched with lastSignal := 20 }
    (calmWorld (stopStatus 18) []) (stopStatus 18) ⟨0, 0⟩ rfl rfl (by decide) (by decide)
    (fun _ => rfl)).1

/-- C16 fails as stated: with SIGTSTP remembered and a signal handler registered, a SIGCONT stop
whose signal-info query fails returns that error and leaves `lastSignal` at SIGTSTP. -/
theorem sigcont_not_cleared_on_query_failure :
    (stopStatus 18).StopSignal = SIGCONT ∧
    waitForSyscall plainDecoder { signalWatched with lastSignal := 20 }
        { calmWorld (stopStatus 18) [] with sigInfo := Except.error 3 } =
      ⟨{ signalWatched with lastSignal := 20 },
        [Effect.ptraceSyscall 7 20, Effect.wait4 7 (some 4735), Effect.getSignalInfo 7],
        some (TraceError.signalInfo 3)⟩ := by
  decide

/-- C19, as amended: for a wait status that reports the tracee terminated by a signal (neither
exited nor stopped, so `StopSignal()` is -1) `waitForSyscall` takes the signal path: it does not
call the process-exit handler, does not return `errExited`, does not take the job-control stop
branch and leaves `lastSignal` as it was. When the signal-info query is answered (it is made only
with a signal handler registered) and the inner resume (made only while a signal is remembered)
succeeds or fails with ESRCH, the iteration returns nil with the session untouched, and unless a
terminating signal is recorded `loop` goes on with another resume `PtraceSyscall(pid,
lastSignal)` on the dead process. -/
theorem signaled_status_keeps_looping (d : Decoder) (t : Tracer) (w w' : World)
    (ws : List World) (st : WaitStatus) (info : SigInfo)
    (hres : w.resume = Option.none) (hwait : w.wait = Except.ok st)
    (hex : st.Exited = false) (hstop : st.Stopped = false) :
    st.StopSignal = -1 ∧
    classify d t w st = signalStop t w st ∧
    (waitForSyscall d t w).err ≠ some TraceError.exited ∧
    (∀ e ∈ (waitForSyscall d t w).effects, e.isProcessExit = false) ∧
    (waitForSyscall d t w).tracer.lastSignal = t.lastSignal ∧
    ((t.handlers.signal = true → w.sigInfo = Except.ok info) →
      (t.lastSignal ≠ 0 → w.innerResume = Option.none ∨ w.innerResume = some ESRCH) →
      waitForSyscall d t w =
        ⟨t, [Effect.ptraceSyscall t.pid t.lastSignal, Effect.wait4 t.pid (some st)] ++
            (if t.handlers.signal then [Effect.getSignalInfo t.pid, Effect.signal info] else [])
            ++ (if t.lastSignal ≠ 0 then [Effect.ptraceSyscall t.pid t.lastSignal] else []),
          Option.none⟩ ∧
      (¬ (listen t w.sigBeforeLoopCheck).receivedSignal > 0 →
        ∃ rest, (loop d t (w :: w' :: ws)).effects =
          (waitForSyscall d t w).effects ++ Effect.ptraceSyscall t.pid t.lastSignal :: rest)) := by
  have hsig : st.StopSignal = -1 := by
    simp [WaitStatus.StopSignal, hstop]
  have hplain : st.StopSignal ≠ SIGTRAP := by rw [hsig]; decide
  have htag : st.StopSignal ≠ SIGTRAP_SYSGOOD := by rw [hsig]; decide
  have hcls := classify_signal d t w st hplain htag hex
  have hnj : (st.StopSignal == SIGSTOP || st.StopSignal == SIGTSTP ||
      st.StopSignal == SIGTTIN || st.StopSignal == SIGTTOU) = false := by
    rw [hsig]; decide
  have hnc : (st.StopSignal == SIGCONT) = false := by rw [hsig]; decide
  refine ⟨hsig, hcls, ?_, ?_, ?_, fun hinfo hinner => ?_⟩
  · rcases waitForSyscall_exit_cases d t w with ⟨st', hex', hs⟩ | h
    · have hw := waitForSyscall_waited d t w st hres hwait
      rw [hs] at hw
      have : Effect.wait4 t.pid (some st') ∈
          ((classify d t w st).after
            [Effect.ptraceSyscall t.pid t.lastSignal, Effect.wait4 t.pid (some st)]).effects := by
        rw [← hw]; simp
      have hq := (classify_frame d t w st hex).2.1
      rw [List.all_eq_true] at hq
      simp only [Step.after, List.mem_append, List.mem_cons, List.mem_singleton,
        List.not_mem_nil, or_false] at this
      rcases this with (h | h) | h
      · cases h
      · cases h
        rw [hex] at hex'
        cases hex'
      · have := hq _ h
        simp [Effect.quiet, Effect.isWait4] at this
    · exact h.1
  · rcases waitForSyscall_exit_cases d t w with ⟨st', hex', hs⟩ | h
    · have hw := waitForSyscall_waited d t w st hres hwait
      rw [hs] at hw
      have : (classify d t w st).err = some TraceError.exited := by
        have := congrArg Step.err hw
        simpa [Step.after] using this.symm
      exact absurd this (classify_frame d t w st hex).1
    · exact h.2.1
  · rcases (waitForSyscall_lastSignal d t w).1 with h | ⟨st1, hw1, hj, _⟩ | ⟨st1, hw1, hc, _⟩
    · exact h
    · rw [hwait] at hw1
      cases hw1
      rw [hsig] at hj
      cases hj
    · rw [hwait] at hw1
      cases hw1
      rw [hsig] at hc
      cases hc
  · have hstep : waitForSyscall d t w =
        ⟨t, [Effect.ptraceSyscall t.pid t.lastSignal, Effect.wait4 t.pid (some st)] ++
            (if t.handlers.signal then [Effect.getSignalInfo t.pid, Effect.signal info] else [])
            ++ (if t.lastSignal ≠ 0 then [Effect.ptraceSyscall t.pid t.lastSignal] else []),
          Option.none⟩ := by
      rw [waitForSyscall_waited d t w st hres hwait, hcls,
        signalStop_with_info t w st info hinfo]
      unfold jobControl
      simp only [hnj, hnc, Bool.false_eq_true, if_false]
      by_cases hl : t.lastSignal = 0
      · simp [hl, Step.after]
      · rcases hinner hl with h | h
        · simp [hl, h, Step.after]
        · simp [hl, h, Step.after]
    refine ⟨hstep, fun hgo => ?_⟩
    have hgo' : ¬ (listen (waitForSyscall d t w).tracer w.sigBeforeLoopCheck).receivedSignal > 0 := by
      rw [hstep]; exact hgo
    rw [loop_continues d t w (w' :: ws) (by rw [hstep]) hgo']
    obtain ⟨rest, hrest⟩ := loop_effects_head d
      (listen (waitForSyscall d t w).tracer w.sigBeforeLoopCheck) w' ws
    refine ⟨rest, ?_⟩
    simp only [Run.after, hrest, listen_pid, listen_lastSignal]
    rw [hstep]

/-- C19, as amended, at a concrete input: the tracee is killed by SIGKILL; the session has no
handlers and remembers no signal. -/
theorem signaled_status_keeps_looping_witness :
    ∃ rest, (loop plainDecoder (New 7) (calmWorld 9 [] :: openEnter :: [])).effects =
      (waitForSyscall plainDecoder (New 7) (calmWorld 9 [])).effects ++
        Effect.ptraceSyscall (New 7).pid (New 7).lastSignal :: rest :=
  ((signaled_status_keeps_looping plainDecoder (New 7) (calmWorld 9 []) openEnter [] 9 ⟨0, 0⟩
    rfl rfl (by decide) (by decide)).2.2.2.2.2
      (fun h => absurd h (by decide)) (fun h => absurd rfl h)).2 (by decide)

/-- C19 fails as stated: the status 9 (killed by SIGKILL) is neither exited nor stopped, but a
session with a signal handler whose signal-info query fails with ESRCH returns that error, not
nil, and `loop` ends with it; and a session that remembers SIGSTOP returns the errno of the inner
resume when that fails with EPERM. -/
theorem signaled_status_can_abort :
    WaitStatus.Exited 9 = false ∧ WaitStatus.StopSignal 9 = -1 ∧
    waitForSyscall plainDecoder signalWatched
        { calmWorld 9 [] with sigInfo := Except.error 3 } =
      ⟨signalWatched, [Effect.ptraceSyscall 7 0, Effect.wait4 7 (some 9), Effect.getSignalInfo 7],
        some (TraceError.signalInfo 3)⟩ ∧
    loop plainDecoder signalWatched
        [{ calmWorld 9 [] with sigInfo := Except.error 3 }, openEnter] =
      ⟨signalWatched, [Effect.ptraceSyscall 7 0, Effect.wait4 7 (some 9), Effect.getSignalInfo 7],
        Outcome.returned (some (TraceError.signalInfo 3))⟩ ∧
    waitForSyscall plainDecoder { New 7 with lastSignal := 19 }
        { calmWorld 9 [] with innerResume := some 1 } =
      ⟨{ New 7 with lastSignal := 19 },
        [Effect.ptraceSyscall 7 19, Effect.wait4 7 (some 9), Effect.ptraceSyscall 7 19],
        some (TraceError.errno 1)⟩ := by
  decide

/-! ## The phase over sequences of iterations -/

theorem isSyscallStop_iff (w : World) :
    w.isSyscallStop = true ↔
      ∃ st, w.resume = Option.none ∧ w.wait = Except.ok st ∧
        st.StopSignal = SIGTRAP_SYSGOOD := by
  unfold World.isSyscallStop
  cases hr : w.resume with
  | some errno => simp
  | none =>
    cases hw : w.wait with
    | error errno => simp
    | ok st => simp

/-- An iteration that is not a syscall stop returning nil leaves `isExit` and `lastCall` as they
were. -/
theorem waitForSyscall_keeps_phase (d : Decoder) (t : Tracer) (w : World)
    (h : ¬ (w.isSyscallStop = true ∧ (waitForSyscall d t w).err = Option.none)) :
    (waitForSyscall d t w).tracer.isExit = t.isExit ∧
    (waitForSyscall d t w).tracer.lastCall = t.lastCall := by
  cases hr : w.resume with
  | some errno => simp [waitForSyscall, hr]
  | none =>
    cases hw : w.wait with
    | error errno => simp [waitForSyscall, hr, hw]
    | ok st =>
      rw [waitForSyscall_waited d t w st hr hw] at h ⊢
      simp only [Step.after] at h ⊢
      by_cases htag : st.StopSignal = SIGTRAP_SYSGOOD
      · rw [classify_sysgood d t w st htag] at h ⊢
        have hs : w.isSyscallStop = true := (isSyscallStop_iff w).2 ⟨st, hr, hw, htag⟩
        rcases syscallStop_cases d t w with ⟨_, ht⟩ | ⟨he, _⟩
        · rw [ht]
          exact ⟨rfl, rfl⟩
        · exact absurd ⟨hs, he⟩ h
      · unfold classify
        split
        · exact ⟨rfl, rfl⟩
        · split
          · exact ⟨rfl, rfl⟩
          · split
            · have := signalStop_frame t w st
              exact ⟨this.2.2.2.2.1, this.2.2.2.2.2⟩
            · rename_i h3
              simp at h3
              exact absurd h3 htag

/-- A syscall stop that returns nil flips `isExit`, records the populated event and hands it to
the handler of the phase it started in. -/
theorem waitForSyscall_dispatch (d : Decoder) (t : Tracer) (w : World)
    (hs : w.isSyscallStop = true) (hok : (waitForSyscall d t w).err = Option.none) :
    (waitForSyscall d t w).tracer.isExit = (!t.isExit) ∧
    ∃ st handed call, w.wait = Except.ok st ∧ d.populate handed t.isExit = Except.ok call ∧
      (waitForSyscall d t w).tracer.lastCall = some call ∧
      (waitForSyscall d t w).effects =
        [Effect.ptraceSyscall t.pid t.lastSignal, Effect.wait4 t.pid (some st),
          Effect.ptraceGetRegs t.pid, Effect.populate handed t.isExit] ++ dispatch d t call := by
  obtain ⟨st, hr, hw, htag⟩ := (isSyscallStop_iff w).1 hs
  rw [waitForSyscall_waited d t w st hr hw, classify_sysgood d t w st htag] at hok ⊢
  simp only [Step.after] at hok ⊢
  rcases syscallStop_cases d t w with ⟨he, _⟩ | ⟨_, handed, call, hq, ht, hes⟩
  · exact absurd hok he
  · refine ⟨by rw [ht], st, handed, call, hw, hq, by rw [ht], ?_⟩
    rw [hes]
    rfl

theorem dispatched_cons (d : Decoder) (t : Tracer) (w : World) (ws : List World) :
    dispatched d t (w :: ws) =
      if (w.isSyscallStop && (waitForSyscall d t w).err.isNone) = true then
        ⟨t, w, waitForSyscall d t w⟩ ::
          dispatched d (listen (waitForSyscall d t w).tracer w.sigBeforeLoopCheck) ws
      else dispatched d (listen (waitForSyscall d t w).tracer w.sigBeforeLoopCheck) ws := by
  simp only [dispatched, iterations, List.filter_cons, Iteration.isDispatch]

theorem isDispatch_iff (w : World) (s : Step) :
    (w.isSyscallStop && s.err.isNone) = true ↔ (w.isSyscallStop = true ∧ s.err = Option.none) := by
  cases w.isSyscallStop <;> cases s.err <;> simp

/-- Every iteration of a sequence is `waitForSyscall` on its session and answers. -/
theorem iterations_step (d : Decoder) (ws : List World) (t : Tracer) :
    ∀ it ∈ iterations d t ws, it.step = waitForSyscall d it.before it.world := by
  induction ws generalizing t with
  | nil => simp [iterations]
  | cons w ws ih =>
    intro it hit
    simp only [iterations, List.mem_cons] at hit
    rcases hit with rfl | hit
    · rfl
    · exact ih _ it hit

/-- The session a sequence of iterations leaves has the phase and the recorded event that the
last syscall stop returning nil left, or those it started with when there was none. -/
theorem sessionAfter_last (d : Decoder) (ws : List World) (t : Tracer) :
    (∀ it, (dispatched d t ws).getLast? = some it →
      (sessionAfter d t ws).isExit = it.step.tracer.isExit ∧
      (sessionAfter d t ws).lastCall = it.step.tracer.lastCall) ∧
    ((dispatched d t ws).getLast? = Option.none →
      (sessionAfter d t ws).isExit = t.isExit ∧ (sessionAfter d t ws).lastCall = t.lastCall) := by
  induction ws generalizing t with
  | nil => simp [dispatched, iterations, sessionAfter]
  | cons w ws ih =>
    obtain ⟨ih1, ih2⟩ := ih (listen (waitForSyscall d t w).tracer w.sigBeforeLoopCheck)
    rw [dispatched_cons]
    simp only [sessionAfter]
    by_cases hq : (w.isSyscallStop && (waitForSyscall d t w).err.isNone) = true
    · simp only [hq, if_true, List.getLast?_cons]
      cases hl : (dispatched d
          (listen (waitForSyscall d t w).tracer w.sigBeforeLoopCheck) ws).getLast? with
      | none =>
        have := ih2 hl
        simp only [listen_isExit, listen_lastCall] at this
        simp [this]
      | some it =>
        have := ih1 it hl
        simp [this]
    · simp only [hq, if_false, Bool.false_eq_true]
      refine ⟨ih1, fun hl => ?_⟩
      have := ih2 hl
      simp only [listen_isExit, listen_lastCall] at this
      have hk := waitForSyscall_keeps_phase d t w (fun h => hq ((isDispatch_iff w _).2 h))
      rw [this.1, this.2]
      exact hk

/-- The syscall stops of a sequence that returned nil start in alternating phases, and each starts
with the event recorded by the one before it. -/
theorem dispatched_alternates (d : Decoder) (ws : List World) (t : Tracer) :
    alternates t.isExit t.lastCall (dispatched d t ws) := by
  induction ws generalizing t with
  | nil => simp [dispatched, iterations, alternates]
  | cons w ws ih =>
    have ih' := ih (listen (waitForSyscall d t w).tracer w.sigBeforeLoopCheck)
    simp only [listen_isExit, listen_lastCall] at ih'
    rw [dispatched_cons]
    by_cases hq : (w.isSyscallStop && (waitForSyscall d t w).err.isNone) = true
    · simp only [hq, if_true, alternates]
      obtain ⟨hs, hok⟩ := (isDispatch_iff w _).1 hq
      rw [(waitForSyscall_dispatch d t w hs hok).1] at ih'
      exact ⟨trivial, trivial, ih'⟩
    · simp only [hq, if_false, Bool.false_eq_true]
      have hk := waitForSyscall_keeps_phase d t w (fun h => hq ((isDispatch_iff w _).2 h))
      rw [hk.1, hk.2] at ih'
      exact ih'

/-- In an alternating list the iteration at (zero-based) position `k` starts in the first phase
when `k` is even and in the other one when `k` is odd, and for `k > 0` with the event recorded by
the iteration at position `k - 1`. -/
theorem alternates_at (L : List Iteration) (phase : Bool) (last : Option Syscall)
    (h : alternates phase last L) (k : Nat) (it : Iteration) (hk : L[k]? = some it) :
    it.before.isExit = (if k % 2 = 0 then phase else !phase) ∧
    (k = 0 → it.before.lastCall = last) ∧
    (∀ prev, L[k - 1]? = some prev → 0 < k →
      it.before.lastCall = prev.step.tracer.lastCall) := by
  induction L generalizing phase last k with
  | nil => simp at hk
  | cons a L ih =>
    obtain ⟨h1, h2, h3⟩ := h
    cases k with
    | zero =>
      simp only [List.getElem?_cons_zero, Option.some.injEq] at hk
      subst hk
      exact ⟨by simpa using h1, fun _ => h2, fun _ _ hpos => absurd hpos (by decide)⟩
    | succ k =>
      simp only [List.getElem?_cons_succ] at hk
      obtain ⟨g1, g2, g3⟩ := ih (!phase) a.step.tracer.lastCall h3 k hk
      refine ⟨?_, fun h0 => absurd h0 (by omega), fun prev hprev _ => ?_⟩
      · rw [g1]
        have : (k + 1) % 2 = 0 ↔ ¬ k % 2 = 0 := by omega
        by_cases hk2 : k % 2 = 0
        · simp [hk2, this]
        · simp [hk2, this]
      · cases k with
        | zero =>
          simp only [Nat.zero_add, Nat.sub_self, List.getElem?_cons_zero,
            Option.some.injEq] at hprev
          subst hprev
          exact g2 rfl
        | succ k =>
          simp only [Nat.add_sub_cancel, List.getElem?_cons_succ] at hprev
          exact g3 prev (by simpa using hprev) (by omega)

/-- What is known of a syscall stop of a sequence that returned nil. -/
theorem dispatched_mem (d : Decoder) (t : Tracer) (ws : List World) (it : Iteration)
    (hit : it ∈ dispatched d t ws) :
    it.step = waitForSyscall d it.before it.world ∧
    it.step.tracer.isExit = (!it.before.isExit) ∧
    ∃ st handed call, it.world.wait = Except.ok st ∧
      d.populate handed it.before.isExit = Except.ok call ∧
      it.step.tracer.lastCall = some call ∧
      it.step.effects =
        [Effect.ptraceSyscall it.before.pid it.before.lastSignal,
          Effect.wait4 it.before.pid (some st), Effect.ptraceGetRegs it.before.pid,
          Effect.populate handed it.before.isExit] ++ dispatch d it.before call := by
  simp only [dispatched, List.mem_filter, Iteration.isDispatch] at hit
  obtain ⟨hmem, hq⟩ := hit
  have hstep := iterations_step d ws t it hmem
  obtain ⟨hs, hok⟩ := (isDispatch_iff it.world it.step).1 hq
  rw [hstep] at hok ⊢
  exact ⟨rfl, waitForSyscall_dispatch d it.before it.world hs hok⟩

/-- C17: in every session reached from a session in enter phase (as a freshly constructed one is:
`isExit` false, `lastCall` nil) by any sequence of `waitForSyscall` iterations over arbitrary
kernel answers, `isExit = true` implies that `lastCall` is set, and that it is the event which
the most recent syscall stop that returned nil recorded and handed to the enter handler, having
started in enter phase. So in exit phase the guard `t.lastCall != nil` holds and the pairing
check compares every decoded number with the recorded one. -/
theorem exit_phase_has_recorded_enter_event (d : Decoder) (t0 : Tracer) (ws : List World)
    (hphase : t0.isExit = false) (hexit : (sessionAfter d t0 ws).isExit = true) :
    ∃ it st handed call,
      (dispatched d t0 ws).getLast? = some it ∧
      it.step = waitForSyscall d it.before it.world ∧
      it.before.isExit = false ∧
      d.populate handed false = Except.ok call ∧
      it.step.effects =
        [Effect.ptraceSyscall it.before.pid it.before.lastSignal,
          Effect.wait4 it.before.pid (some st), Effect.ptraceGetRegs it.before.pid,
          Effect.populate handed false] ++
          (if it.before.handlers.syscallEnter then
            (if call.number = d.sysRead then [Effect.sleep 50, Effect.syscallEnter call]
              else [Effect.syscallEnter call])
          else []) ∧
      (sessionAfter d t0 ws).lastCall = some call ∧
      ∀ c, pairWithLast (sessionAfter d t0 ws) c =
        if c.number = call.number then
          Except.ok { c with args := call.args, paths := call.paths }
        else Except.error (TraceError.exitMismatch c.number call.number) := by
  obtain ⟨h1, h2⟩ := sessionAfter_last d ws t0
  cases hl : (dispatched d t0 ws).getLast? with
  | none =>
    have := (h2 hl).1
    rw [hexit, hphase] at this
    cases this
  | some it =>
    obtain ⟨hx, hc⟩ := h1 it hl
    obtain ⟨hstep, hflip, st, handed, call, _, hpop, hcall, hes⟩ :=
      dispatched_mem d t0 ws it (List.mem_of_getLast?_eq_some hl)
    have hbefore : it.before.isExit = false := by
      rw [hexit, hflip] at hx
      cases hb : it.before.isExit
      · rfl
      · rw [hb] at hx
        cases hx
    rw [hbefore] at hpop hes
    refine ⟨it, st, handed, call, rfl, hstep, hbefore, hpop, ?_, by rw [hc, hcall], fun c => ?_⟩
    · rw [hes]
      unfold dispatch
      cases it.before.handlers.syscallEnter <;> by_cases hn : call.number = d.sysRead <;>
        simp [hbefore, hn]
    · unfold pairWithLast
      rw [hexit, hc, hcall]
      by_cases hn : c.number = call.number <;> simp [hn]

/-- C17 at a concrete input: `open` is entered, then SIGINT stops the tracee. -/
theorem exit_phase_has_recorded_enter_event_witness :
    ∃ call, (sessionAfter plainDecoder watched [openEnter, calmWorld (stopStatus 2) []]).lastCall
      = some call ∧ call.number = 2 := by
  obtain ⟨it, st, handed, call, _, _, _, _, _, hcall, _⟩ :=
    exit_phase_has_recorded_enter_event plainDecoder watched
      [openEnter, calmWorld (stopStatus 2) []] rfl (by decide)
  refine ⟨call, hcall, ?_⟩
  have : (sessionAfter plainDecoder watched [openEnter, calmWorld (stopStatus 2) []]).lastCall
      = some ⟨7, 2, [10, 20], [], []⟩ := by decide
  rw [this] at hcall
  cases hcall
  rfl

/-- C18: an iteration that is not a syscall stop returning nil (a signal stop, a plain SIGTRAP
stop, a process exit, or any iteration that returns an error) leaves `isExit` and `lastCall`
exactly as they were. Hence, for any sequence of iterations on a fresh session (`isExit` false,
`lastCall` nil), whatever stops lie in between, the `k`-th syscall stop that returns nil starts
in enter phase when `k` is odd and in exit phase when `k` is even, hands its event to the handler
of that phase and records it, and for `k > 1` the event it is paired against (`lastCall`) is the
one recorded by the `(k-1)`-th. -/
theorem phase_alternates_across_signals (d : Decoder) (t0 : Tracer) (ws : List World)
    (hphase : t0.isExit = false) (hlast : t0.lastCall = Option.none) :
    (∀ (t : Tracer) (w : World),
      ¬ (w.isSyscallStop = true ∧ (waitForSyscall d t w).err = Option.none) →
      (waitForSyscall d t w).tracer.isExit = t.isExit ∧
      (waitForSyscall d t w).tracer.lastCall = t.lastCall) ∧
    ∀ k it, 1 ≤ k → (dispatched d t0 ws)[k - 1]? = some it →
      it.step = waitForSyscall d it.before it.world ∧
      (k % 2 = 1 → it.before.isExit = false) ∧
      (k % 2 = 0 → it.before.isExit = true) ∧
      (∃ st handed call, d.populate handed it.before.isExit = Except.ok call ∧
        it.step.tracer.lastCall = some call ∧
        it.step.effects =
          [Effect.ptraceSyscall it.before.pid it.before.lastSignal,
            Effect.wait4 it.before.pid (some st), Effect.ptraceGetRegs it.before.pid,
            Effect.populate handed it.before.isExit] ++ dispatch d it.before call) ∧
      (k = 1 → it.before.lastCall = Option.none) ∧
      (∀ prev, 2 ≤ k → (dispatched d t0 ws)[k - 2]? = some prev →
        it.before.lastCall = prev.step.tracer.lastCall ∧
        ∃ call, it.before.lastCall = some call) := by
  refine ⟨fun t w h => waitForSyscall_keeps_phase d t w h, fun k it hk hit => ?_⟩
  have halt := dispatched_alternates d ws t0
  rw [hphase, hlast] at halt
  obtain ⟨a1, a2, a3⟩ := alternates_at _ _ _ halt (k - 1) it hit
  obtain ⟨hstep, _, st, handed, call, _, hpop, hcall, hes⟩ :=
    dispatched_mem d t0 ws it (List.getElem?_mem hit)
  refine ⟨hstep, fun hodd => ?_, fun heven => ?_, ⟨st, handed, call, hpop, hcall, hes⟩,
    fun h1 => a2 (by omega), fun prev h2 hprev => ?_⟩
  · have : (k - 1) % 2 = 0 := by omega
    simpa [this] using a1
  · have : ¬ (k - 1) % 2 = 0 := by omega
    simpa [this] using a1
  · have hkk : k - 1 - 1 = k - 2 := by omega
    have := a3 prev (by rw [hkk]; exact hprev) (by omega)
    refine ⟨this, ?_⟩
    rw [this]
    obtain ⟨_, _, _, _, c, _, _, hc, _⟩ :=
      dispatched_mem d t0 ws prev (List.getElem?_mem hprev)
    exact ⟨c, hc⟩

/-- C18 at a concrete input: `open` is entered, SIGINT stops the tracee, `open` is left; the
second syscall stop that returns nil starts in exit phase. -/
theorem phase_alternates_across_signals_witness :
    ∃ it, (dispatched plainDecoder watched
        [openEnter, calmWorld (stopStatus 2) [], openExit])[2 - 1]? = some it ∧
      it.before.isExit = true := by
  have hsome : ((dispatched plainDecoder watched
      [openEnter, calmWorld (stopStatus 2) [], openExit])[2 - 1]?).isSome = true := by decide
  obtain ⟨it, hit⟩ := Option.isSome_iff_exists.1 hsome
  exact ⟨it, hit,
    ((phase_alternates_across_signals plainDecoder watched
      [openEnter, calmWorld (stopStatus 2) [], openExit] rfl rfl).2 2 it (by decide) hit).2.2.1
      rfl⟩

/-! ## `Start` and its cleanup -/

theorem jobControl_inLoop (t : Tracer) (w : World) (st : WaitStatus) :
    (jobControl t w st).effects.all Effect.inLoop = true := by
  unfold jobControl
  simp only
  split
  · split <;> simp
  · split
    · split
      · simp
      · cases w.innerResume with
        | none => simp [Effect.inLoop]
        | some errno =>
          simp only
          split <;> simp [Effect.inLoop]
    · simp

theorem onSyscallPath_inLoop (e : Effect) (h : e.onSyscallPath = true) : e.inLoop = true := by
  cases e <;> simp_all [Effect.onSyscallPath, Effect.inLoop]

/-- An iteration of the loop has none of the effects of `Start`. -/
theorem waitForSyscall_inLoop (d : Decoder) (t : Tracer) (w : World) :
    (waitForSyscall d t w).effects.all Effect.inLoop = true := by
  unfold waitForSyscall
  cases w.resume with
  | some errno => simp [Effect.inLoop]
  | none =>
    cases w.wait with
    | error errno => simp [Effect.inLoop]
    | ok st =>
      simp only [Step.after, List.all_append]
      have hhead : [Effect.ptraceSyscall t.pid t.lastSignal, Effect.wait4 t.pid (some st)].all
          Effect.inLoop = true := by
        simp [Effect.inLoop]
      rw [hhead, Bool.true_and]
      unfold classify
      split
      · simp
      · split
        · simp only
          split <;> simp [Effect.inLoop]
        · split
          · unfold signalStop
            split
            · cases w.sigInfo with
              | error code => simp [Effect.inLoop]
              | ok info =>
                simp only [Step.after, List.all_append, jobControl_inLoop t w st]
                simp [Effect.inLoop]
            · exact jobControl_inLoop t w st
          · have h := syscallStop_onSyscallPath d t w
            rw [List.all_eq_true] at h ⊢
            exact fun e he => onSyscallPath_inLoop e (h e he)

/-- A run of the loop has none of the effects of `Start` and keeps the pid and the handlers. -/
theorem loop_inLoop (d : Decoder) (ws : List World) (t : Tracer) :
    (loop d t ws).effects.all Effect.inLoop = true ∧
    (loop d t ws).tracer.pid = t.pid ∧
    (loop d t ws).tracer.handlers = t.handlers := by
  induction ws generalizing t with
  | nil => simp [loop]
  | cons w ws ih =>
    have h1 := waitForSyscall_inLoop d t w
    have h2 := waitForSyscall_pid d t w
    have h3 := waitForSyscall_handlers d t w
    simp only [loop]
    split
    · split <;> exact ⟨h1, h2, h3⟩
    · split
      · exact ⟨h1, by simpa using h2, by simpa using h3⟩
      · obtain ⟨g1, g2, g3⟩ := ih (listen (waitForSyscall d t w).tracer w.sigBeforeLoopCheck)
        simp only [listen_pid, listen_handlers] at g2 g3
        refine ⟨?_, by rw [← h2]; exact g2, by rw [← h3]; exact g3⟩
        simp only [Run.after, List.all_append, h1, g1, Bool.and_self]

theorem inLoop_not_cleanup (e : Effect) (h : e.inLoop = true) :
    e.isCleanup = false ∧ e.isAttach = false := by
  cases e <;> simp_all [Effect.inLoop, Effect.isCleanup, Effect.isAttach]

theorem attachStep_ok (t : Tracer) (sw : StartWorld) (h : t.cmd = false → sw.attach = Option.none) :
    attachStep t sw = (if t.cmd then [] else [Effect.ptraceAttach t.pid], Option.none) := by
  unfold attachStep
  cases hc : t.cmd with
  | true => simp
  | false => simp [h hc]

theorem loop_not_cleanup (d : Decoder) (t : Tracer) (ws : List World) :
    ∀ x ∈ (loop d t ws).effects, x.isCleanup = false ∧ x.isAttach = false := by
  have h := (loop_inLoop d ws t).1
  rw [List.all_eq_true] at h
  exact fun x hx => inLoop_not_cleanup x (h x hx)

/-- What `Start` does up to the option setup is no cleanup. -/
theorem begun_not_cleanup (t : Tracer) (st : WaitStatus) :
    ([Effect.findProcess t.pid] ++ (if t.cmd then [] else [Effect.ptraceAttach t.pid]) ++
      (if t.handlers.attach then [Effect.attach t.pid] else []) ++
      [Effect.wait4 t.pid (some st), Effect.ptraceSetOptions t.pid]).all
        (fun x => !x.isCleanup) = true := by
  cases t.cmd <;> cases t.handlers.attach <;> rfl

/-- What `Start` returns does not depend on the answers to the deferred `PtraceDetach` and
wait. -/
theorem Start_outcome_ignores_cleanup (d : Decoder) (t : Tracer) (sw : StartWorld)
    (ws : List World) (x : Option Int) (y : Except Int WaitStatus) :
    (Start d t { sw with detach := x, finalWait := y } ws).outcome =
      (Start d t sw ws).outcome := by
  obtain ⟨f, a, iw, so, dt, fw⟩ := sw
  simp only [Start, attachStep]
  cases f with
  | some err => rfl
  | none =>
    cases t.cmd with
    | true =>
      cases iw <;> cases so <;> (try cases (loop d t ws).outcome) <;> rfl
    | false =>
      cases a with
      | some errno => by_cases he : errno = EPERM <;> simp [he]
      | none =>
        cases iw <;> cases so <;> (try cases (loop d t ws).outcome) <;> rfl

/-- C14, as amended: when the process lookup, the attach request (made in attach mode only) and
the wait for the initial stop succeed, then however the option setup and the trace loop end,
`Start` on returning first performs, in attach mode, `PtraceDetach` followed by a wait, and then
calls the detach handler, if one is registered, with the traced pid; these are the last effects
of the run, the only `PtraceDetach` and the only call of the detach handler, and the answers to
`PtraceDetach` and to that wait do not change what `Start` returns. When the process lookup or
the attach request fails, `Start` returns the error without `PtraceDetach` and without calling the
detach handler. -/
theorem start_cleans_up_after_initial_stop (d : Decoder) (t : Tracer) (sw : StartWorld)
    (ws : List World) (st : WaitStatus) (e : Option StartError)
    (hfind : sw.findProcess = Option.none) (hattach : t.cmd = false → sw.attach = Option.none)
    (hwait : sw.initialWait = Except.ok st)
    (hret : (Start d t sw ws).outcome = StartOutcome.returned e) :
    (∃ pre, (Start d t sw ws).effects =
        pre ++
          (if t.cmd then []
            else [Effect.ptraceDetach t.pid, Effect.wait4 t.pid (waited sw.finalWait)]) ++
          (if t.handlers.detach then [Effect.detach t.pid] else []) ∧
      ∀ x ∈ pre, x.isCleanup = false) ∧
    (∀ x y, (Start d t { sw with detach := x, finalWait := y } ws).outcome =
      (Start d t sw ws).outcome) ∧
    (∀ (sw1 : StartWorld) (err : Int), sw1.findProcess = some err →
      Start d t sw1 ws =
        ⟨t, [Effect.findProcess t.pid],
          StartOutcome.returned (some (StartError.findProcess err))⟩) ∧
    (∀ (sw1 : StartWorld) (errno : Int), sw1.findProcess = Option.none → t.cmd = false →
      sw1.attach = some errno →
      Start d t sw1 ws =
        ⟨t, [Effect.findProcess t.pid, Effect.ptraceAttach t.pid],
          StartOutcome.returned
            (some (if errno = EPERM then StartError.permission errno
              else StartError.errno errno))⟩) := by
  have hat := attachStep_ok t sw hattach
  refine ⟨?_, fun x y => ?_, fun sw1 err h1 => ?_, fun sw1 errno h1 hc h2 => ?_⟩
  · unfold Start at hret ⊢
    simp only [hfind, hat, hwait] at hret ⊢
    cases hso : sw.setOptions with
    | some errno =>
      simp only [deferred]
      refine ⟨[Effect.findProcess t.pid] ++ (if t.cmd then [] else [Effect.ptraceAttach t.pid]) ++
        (if t.handlers.attach then [Effect.attach t.pid] else []) ++
        [Effect.wait4 t.pid (some st), Effect.ptraceSetOptions t.pid], ?_, ?_⟩
      · cases t.cmd <;> simp
      · intro x hx
        have := List.all_eq_true.1 (begun_not_cleanup t st) x hx
        simpa using this
    | none =>
      simp only [hso] at hret
      cases hlo : (loop d t ws).outcome with
      | running => simp [hlo] at hret
      | returned err =>
        simp only [deferred]
        obtain ⟨_, hp, hh⟩ := loop_inLoop d ws t
        refine ⟨[Effect.findProcess t.pid] ++
          (if t.cmd then [] else [Effect.ptraceAttach t.pid]) ++
          (if t.handlers.attach then [Effect.attach t.pid] else []) ++
          [Effect.wait4 t.pid (some st), Effect.ptraceSetOptions t.pid] ++
          (loop d t ws).effects, ?_, ?_⟩
        · rw [hp, hh]
          cases t.cmd <;> simp
        · intro x hx
          rcases List.mem_append.1 hx with hx | hx
          · have := List.all_eq_true.1 (begun_not_cleanup t st) x hx
            simpa using this
          · exact (loop_not_cleanup d t ws x hx).1
  · exact Start_outcome_ignores_cleanup d t sw ws x y
  · unfold Start
    simp [h1]
  · unfold Start
    by_cases he : errno = EPERM
    · simp [h1, attachStep, hc, h2, he]
    · simp [h1, attachStep, hc, h2, he]

/-- C14, as amended, at a concrete input: attach to pid 7, trace `open`, the tracee exits. -/
theorem start_cleans_up_after_initial_stop_witness :
    ∃ pre, (Start plainDecoder attachedWatched calmStart
        [openEnter, openExit, calmWorld (exitStatus 0) []]).effects =
        pre ++
          (if attachedWatched.cmd then []
            else [Effect.ptraceDetach attachedWatched.pid,
              Effect.wait4 attachedWatched.pid (waited calmStart.finalWait)]) ++
          (if attachedWatched.handlers.detach then [Effect.detach attachedWatched.pid] else []) ∧
      ∀ x ∈ pre, x.isCleanup = false :=
  (start_cleans_up_after_initial_stop plainDecoder attachedWatched calmStart
    [openEnter, openExit, calmWorld (exitStatus 0) []] (stopStatus 19) Option.none rfl
    (fun _ => rfl) rfl (by decide)).1

/-- C14 fails as stated: with a detach handler registered, an attach request that fails with
EPERM makes `Start` return the error after the process lookup and the attach request alone: the
detach handler is not called and there is no `PtraceDetach`. -/
theorem start_without_cleanup_on_attach_failure :
    attachedWatched.handlers.detach = true ∧ attachedWatched.cmd = false ∧
    Start plainDecoder attachedWatched { calmStart with attach := some 1 } [openEnter] =
      ⟨attachedWatched, [Effect.findProcess 7, Effect.ptraceAttach 7],
        StartOutcome.returned (some (StartError.permission 1))⟩ := by
  decide

/-- The deferred cleanup does not call the attach handler. -/
theorem deferred_not_attach (attachMode : Bool) (t : Tracer) (sw : StartWorld) :
    (deferred attachMode t sw).all (fun x => !x.isAttach) = true := by
  cases attachMode <;> cases h : t.handlers.detach <;> simp [deferred, h, Effect.isAttach]

/-- C15, as amended: in every run of `Start` with an attach handler registered in which the
process lookup and the attach request (made in attach mode only) succeed, the attach handler is
called once, right after them and before the wait for the initial stop, whether that wait then
succeeds or fails; when the wait fails `Start` returns its error having called the handler. -/
theorem attach_handler_precedes_initial_wait (d : Decoder) (t : Tracer) (sw : StartWorld)
    (ws : List World) (hfind : sw.findProcess = Option.none)
    (hattach : t.cmd = false → sw.attach = Option.none) (hreg : t.handlers.attach = true) :
    (∃ rest, (Start d t sw ws).effects =
        [Effect.findProcess t.pid] ++ (if t.cmd then [] else [Effect.ptraceAttach t.pid]) ++
          [Effect.attach t.pid, Effect.wait4 t.pid (waited sw.initialWait)] ++ rest ∧
      ∀ x ∈ rest, x.isAttach = false) ∧
    (∀ errno, sw.initialWait = Except.error errno →
      Start d t sw ws =
        ⟨t, [Effect.findProcess t.pid] ++ (if t.cmd then [] else [Effect.ptraceAttach t.pid]) ++
            [Effect.attach t.pid, Effect.wait4 t.pid Option.none],
          StartOutcome.returned (some (StartError.errno errno))⟩) := by
  have hat := attachStep_ok t sw hattach
  constructor
  · unfold Start
    simp only [hfind, hat, hreg, if_true]
    cases hw : sw.initialWait with
    | error errno => exact ⟨[], by simp [waited], by simp⟩
    | ok st =>
      cases hso : sw.setOptions with
      | some errno =>
        refine ⟨Effect.ptraceSetOptions t.pid :: deferred (!t.cmd) t sw, by simp [waited], ?_⟩
        intro x hx
        rcases List.mem_cons.1 hx with rfl | hx
        · rfl
        · simpa using List.all_eq_true.1 (deferred_not_attach (!t.cmd) t sw) x hx
      | none =>
        cases hlo : (loop d t ws).outcome with
        | running =>
          refine ⟨Effect.ptraceSetOptions t.pid :: (loop d t ws).effects, by simp [waited], ?_⟩
          intro x hx
          simp only [List.mem_cons] at hx
          rcases hx with rfl | hx
          · rfl
          · exact (loop_not_cleanup d t ws x hx).2
        | returned err =>
          refine ⟨Effect.ptraceSetOptions t.pid :: ((loop d t ws).effects ++
            deferred (!t.cmd) (loop d t ws).tracer sw), by simp [waited], ?_⟩
          intro x hx
          rcases List.mem_cons.1 hx with rfl | hx
          · rfl
          · rcases List.mem_append.1 hx with hx | hx
            · exact (loop_not_cleanup d t ws x hx).2
            · simpa using List.all_eq_true.1
                (deferred_not_attach (!t.cmd) (loop d t ws).tracer sw) x hx
  · intro errno hw
    unfold Start
    simp [hfind, hat, hreg, hw]

/-- C15, as amended, at a concrete input: the wait for the initial stop fails with ECHILD. -/
theorem attach_handler_precedes_initial_wait_witness :
    Start plainDecoder attachedWatched { calmStart with initialWait := Except.error 10 }
        [openEnter] =
      ⟨attachedWatched,
        [Effect.findProcess attachedWatched.pid] ++
          (if attachedWatched.cmd then [] else [Effect.ptraceAttach attachedWatched.pid]) ++
          [Effect.attach attachedWatched.pid, Effect.wait4 attachedWatched.pid Option.none],
        StartOutcome.returned (some (StartError.errno 10))⟩ :=
  (attach_handler_precedes_initial_wait plainDecoder attachedWatched
    { calmStart with initialWait := Except.error 10 } [openEnter] rfl (fun _ => rfl) rfl).2 10 rfl

/-- C15 fails as stated: when the wait for the initial stop fails, the attach handler has been
called all the same, and in the order of effects its call stands before that wait, not after
it; so it does in a run whose initial wait succeeds. -/
theorem attach_handler_called_before_failed_wait :
    (Start plainDecoder attachedWatched { calmStart with initialWait := Except.error 10 }
        [openEnter]).effects =
      [Effect.findProcess 7, Effect.ptraceAttach 7, Effect.attach 7, Effect.wait4 7 Option.none] ∧
    (Start plainDecoder attachedWatched calmStart []).effects =
      [Effect.findProcess 7, Effect.ptraceAttach 7, Effect.attach 7,
        Effect.wait4 7 (some 4991), Effect.ptraceSetOptions 7] := by
  decide

/-! ## The active tamper filter -/

theorem Parse_not_accepted {F E : Type} (pkg : FilterPackage F E) (tamper : Option F)
    (input : String) (h : accepted pkg input = false) :
    (Parse pkg tamper input).tamper = tamper := by
  unfold Parse
  by_cases he : input = ""
  · simp [he]
  · simp only [accepted, bne_iff_ne, ne_eq, he, not_false_eq_true, decide_True, Bool.true_and]
      at h
    have hne : (input == "") = false := by simpa using he
    simp only [hne, Bool.false_eq_true, if_false]
    cases hp : pkg.Parse input with
    | mk f err =>
      cases err with
      | none =>
        simp [hp] at h
        exact absurd h he
      | some e => rfl

theorem Parse_accepted {F E : Type} (pkg : FilterPackage F E) (tamper : Option F)
    (input : String) (h : accepted pkg input = true) :
    (Parse pkg tamper input).tamper = (pkg.Parse input).1 := by
  unfold Parse
  simp only [accepted, Bool.and_eq_true, bne_iff_ne, ne_eq] at h
  have hne : (input == "") = false := by simpa using h.1
  simp only [hne, Bool.false_eq_true, if_false]
  cases hp : pkg.Parse input with
  | mk f err =>
    cases err with
    | none => rfl
    | some e => simp [hp] at h

theorem parseAll_not_accepted {F E : Type} (pkg : FilterPackage F E) (inputs : List String)
    (tamper : Option F) (h : ∀ i ∈ inputs, accepted pkg i = false) :
    parseAll pkg tamper inputs = tamper := by
  induction inputs generalizing tamper with
  | nil => rfl
  | cons i is ih =>
    simp only [parseAll]
    rw [Parse_not_accepted pkg tamper i (h i (List.mem_cons_self _ _))]
    exact ih tamper (fun j hj => h j (List.mem_cons_of_mem _ hj))

theorem parseAll_append {F E : Type} (pkg : FilterPackage F E) (pre post : List String)
    (tamper : Option F) :
    parseAll pkg tamper (pre ++ post) = parseAll pkg (parseAll pkg tamper pre) post := by
  induction pre generalizing tamper with
  | nil => rfl
  | cons i is ih =>
    show parseAll pkg (Parse pkg tamper i).tamper (is ++ post) = _
    rw [ih]
    rfl

/-- C12: for every active filter, `Parse("")` returns (nil, nil) and leaves the active filter as
it is; `Parse` of a non-empty input for which `filter.Parse` returns an error returns (nil, err)
and leaves the active filter as it is; `Parse` of a non-empty input that `filter.Parse` accepts
as `f` makes `f` the active filter, whatever was active, and returns (`f`, nil). Hence after any
sequence of `Parse` calls the active filter is the result of the last call with a non-empty
accepted input, and the filter active before the sequence (nil at program start) when there is no
such call. -/
theorem parse_last_wins {F E : Type} (pkg : FilterPackage F E) :
    (∀ tamper, Parse pkg tamper "" = ⟨Option.none, Option.none, tamper⟩) ∧
    (∀ tamper input f err, input ≠ "" → pkg.Parse input = (f, some err) →
      Parse pkg tamper input = ⟨Option.none, some err, tamper⟩) ∧
    (∀ tamper input f, input ≠ "" → pkg.Parse input = (f, Option.none) →
      Parse pkg tamper input = ⟨f, Option.none, f⟩) ∧
    (∀ tamper pre input post, accepted pkg input = true →
      (∀ i ∈ post, accepted pkg i = false) →
      parseAll pkg tamper (pre ++ input :: post) = (pkg.Parse input).1) ∧
    (∀ tamper inputs, (∀ i ∈ inputs, accepted pkg i = false) →
      parseAll pkg tamper inputs = tamper) := by
  refine ⟨fun tamper => ?_, fun tamper input f err hne hp => ?_, fun tamper input f hne hp => ?_,
    fun tamper pre input post hacc hpost => ?_,
    fun tamper inputs h => parseAll_not_accepted pkg inputs tamper h⟩
  · simp [Parse]
  · have : (input == "") = false := by simpa using hne
    simp [Parse, this, hp]
  · have : (input == "") = false := by simpa using hne
    simp [Parse, this, hp]
  · rw [parseAll_append]
    simp only [parseAll]
    rw [Parse_accepted pkg _ input hacc]
    exact parseAll_not_accepted pkg post _ hpost

/-- C12 at a concrete input: `open` is parsed, then the empty input, a malformed one, `read`, and
another malformed one; the filter for `read` is active. -/
theorem parse_last_wins_witness :
    parseAll numberFilters (some 5) (["open", "", "x"] ++ "read" :: ["y", ""]) =
      (numberFilters.Parse "read").1 :=
  (parse_last_wins numberFilters).2.2.2.1 (some 5) ["open", "", "x"] "read" ["y", ""]
    (by decide) (by decide)

/-- C13: with no active filter `Delay` does nothing: no predicate is evaluated and there is no
pause. With an active filter `f` it evaluates `f.Match(e, true)` once, with the exit-view flag
true, and pauses for one second (1000 ms) exactly when the predicate matched; so for a filter
that matches the syscall number `R` it pauses when `e.number = R` and not otherwise. `Delay`
leaves the active filter as it is. -/
theorem delay_matches_exit_view {F E : Type} (pkg : FilterPackage F E) :
    (∀ call, Delay pkg Option.none call = ⟨Option.none, []⟩) ∧
    (∀ f call, Delay pkg (some f) call =
      ⟨some f, DelayEffect.matchCall f call true ::
        (if pkg.Match f call true then [DelayEffect.sleep 1000] else [])⟩) ∧
    (∀ f (R : Int), (∀ call, pkg.Match f call true = (call.number == R)) →
      ∀ call, (Delay pkg (some f) call).effects =
        DelayEffect.matchCall f call true ::
          (if call.number = R then [DelayEffect.sleep 1000] else [])) ∧
    (∀ tamper call, (Delay pkg tamper call).tamper = tamper) := by
  refine ⟨fun call => rfl, fun f call => rfl, fun f R hR call => ?_, fun tamper call => ?_⟩
  · simp [Delay, hR call]
  · cases tamper <;> rfl

/-- C13 at a concrete input: the filter for `read` (number 0) is active; `read` is delayed. -/
theorem delay_matches_exit_view_witness :
    (Delay numberFilters (some 0) ⟨7, 0, [3, 4096], [], []⟩).effects =
      DelayEffect.matchCall 0 ⟨7, 0, [3, 4096], [], []⟩ true ::
        (if (⟨7, 0, [3, 4096], [], []⟩ : Syscall).number = 0 then [DelayEffect.sleep 1000]
          else []) :=
  (delay_matches_exit_view numberFilters).2.2.1 0 0 (fun _ => rfl) ⟨7, 0, [3, 4096], [], []⟩

end Gotrace
